import Mathlib

/-!
# IMDSv2 metadata blocker (`scripts/ebpf-metadata-blocker.c`)

A shallow embedding of the packet filter and the properties of its classification.

Pointers into the packet are offsets from `data` (so `data = 0` and `data_end` is the number of
captured bytes).  Memory is a total function from offsets to bytes: the program is written in C
and a dereference beyond `data_end` still yields whatever byte lies there, so the memory beyond
`data_end` is part of the input.  Every dereference of packet memory is recorded, in order, in
the `reads` of a `Traced` value, so what the program computes and what it touches are both
properties of the same definition.
-/

namespace MetadataBlocker

/-! ## Memory model -/

/-- Byte order of the host the program is compiled for. -/
inductive ByteOrder where
  | little
  | big
  deriving DecidableEq, Repr

/-- The packet as the program sees it: `mem i` is the byte at address `data + i`, and
`data_end` is `ctx->data_end - ctx->data`.  Used for `struct xdp_md` and `struct __sk_buff`. -/
structure PacketView where
  mem : Nat → Nat
  data_end : Nat

/-- A value computed from packet memory, with the offsets that were dereferenced to get it. -/
structure Traced (α : Type) where
  val : α
  reads : List Nat

instance : Monad Traced where
  pure a := ⟨a, []⟩
  bind x f := ⟨(f x.val).val, x.reads ++ (f x.val).reads⟩

/-- One byte load `*(unsigned char *)(data + off)`. -/
def load8 (ctx : PacketView) (off : Nat) : Traced Nat :=
  ⟨ctx.mem off % 256, [off]⟩

/-- A 16-bit load in host byte order. -/
def load16 (bo : ByteOrder) (ctx : PacketView) (off : Nat) : Traced Nat := do
  let b0 ← load8 ctx off
  let b1 ← load8 ctx (off + 1)
  match bo with
  | .little => pure (b0 + 256 * b1)
  | .big => pure (256 * b0 + b1)

/-- A 32-bit load in host byte order. -/
def load32 (bo : ByteOrder) (ctx : PacketView) (off : Nat) : Traced Nat := do
  let b0 ← load8 ctx off
  let b1 ← load8 ctx (off + 1)
  let b2 ← load8 ctx (off + 2)
  let b3 ← load8 ctx (off + 3)
  match bo with
  | .little => pure (b0 + 256 * b1 + 65536 * b2 + 16777216 * b3)
  | .big => pure (16777216 * b0 + 65536 * b1 + 256 * b2 + b3)

/-- Conversion `bpf_htons` of `bpf/bpf_endian.h`: a byte swap on a little-endian host, the
identity on a big-endian one. -/
def bpf_htons (bo : ByteOrder) (x : Nat) : Nat :=
  match bo with
  | .little => (x % 256) * 256 + (x / 256) % 256
  | .big => x % 65536

/-- Conversion `bpf_ntohs` of `bpf/bpf_endian.h`: the same byte swap as `bpf_htons`. -/
def bpf_ntohs (bo : ByteOrder) (x : Nat) : Nat :=
  bpf_htons bo x

/-- The bytes of a C string literal, terminating NUL included. -/
def cstr (s : String) : List Nat :=
  s.toList.map Char.toNat ++ [0]

/-! ## Constants -/

/-- Source line `#define METADATA_IP 0xFE169254`. -/
def METADATA_IP : Nat := 0xFE169254

/-- Source line `#define METADATA_PORT 80`. -/
def METADATA_PORT : Nat := 80

/-- Source line `#define TOKEN_PATH "/latest/api/token"`. -/
def TOKEN_PATH : List Nat := cstr "/latest/api/token"

/-- Source line `#define TOKEN_PATH_LEN 18`. -/
def TOKEN_PATH_LEN : Nat := 18

/-- Constant `ETH_P_IP` of `linux/if_ether.h`. -/
def ETH_P_IP : Nat := 0x0800

/-- Constant `IPPROTO_TCP` of `linux/in.h`. -/
def IPPROTO_TCP : Nat := 6

/-- Constant `IPPROTO_UDP` of `linux/in.h`. -/
def IPPROTO_UDP : Nat := 17

/-- Value of `sizeof(struct ethhdr)`. -/
def sizeof_ethhdr : Nat := 14

/-- Value of `sizeof(struct iphdr)`. -/
def sizeof_iphdr : Nat := 20

/-- Value of `sizeof(struct tcphdr)`. -/
def sizeof_tcphdr : Nat := 20

/-- Constant `XDP_DROP` of `linux/bpf.h`. -/
def XDP_DROP : Int := 1

/-- Constant `XDP_PASS` of `linux/bpf.h`. -/
def XDP_PASS : Int := 2

/-- Constant `TC_ACT_OK` of `linux/pkt_cls.h`. -/
def TC_ACT_OK : Int := 0

/-- Constant `TC_ACT_SHOT` of `linux/pkt_cls.h`. -/
def TC_ACT_SHOT : Int := 2

/-- Capacity of the `blocked_attempts` map (`max_entries`). -/
def blocked_attempts_max_entries : Nat := 1000

/-- Capacity of the `token_requests` map (`max_entries`). -/
def token_requests_max_entries : Nat := 100

/-! ## Header fields (layouts of `linux/if_ether.h`, `linux/ip.h`, `linux/tcp.h`) -/

/-- Field `eth->h_proto`: bytes 12..13 of the Ethernet header. -/
def eth_h_proto (bo : ByteOrder) (ctx : PacketView) (eth : Nat) : Traced Nat :=
  load16 bo ctx (eth + 12)

/-- Field `ip->ihl`: the low four bits of the first byte of the IP header. -/
def ip_ihl (ctx : PacketView) (ip : Nat) : Traced Nat := do
  let b ← load8 ctx ip
  pure (b % 16)

/-- Field `ip->protocol`: byte 9 of the IP header. -/
def ip_protocol (ctx : PacketView) (ip : Nat) : Traced Nat :=
  load8 ctx (ip + 9)

/-- Field `ip->saddr`: bytes 12..15 of the IP header, loaded in host order. -/
def ip_saddr (bo : ByteOrder) (ctx : PacketView) (ip : Nat) : Traced Nat :=
  load32 bo ctx (ip + 12)

/-- Field `ip->daddr`: bytes 16..19 of the IP header, loaded in host order. -/
def ip_daddr (bo : ByteOrder) (ctx : PacketView) (ip : Nat) : Traced Nat :=
  load32 bo ctx (ip + 16)

/-- Field `tcp->dest`: bytes 2..3 of the TCP header, loaded in host order. -/
def tcp_dest (bo : ByteOrder) (ctx : PacketView) (tcp : Nat) : Traced Nat :=
  load16 bo ctx (tcp + 2)

/-- Field `tcp->doff`: the high four bits of byte 12 of the TCP header. -/
def tcp_doff (ctx : PacketView) (tcp : Nat) : Traced Nat := do
  let b ← load8 ctx (tcp + 12)
  pure (b / 16)

/-! ## Helpers of the source -/

/-- Source function `is_tcp`. -/
def is_tcp (ctx : PacketView) (ip : Nat) : Traced Bool := do
  let p ← ip_protocol ctx ip
  pure (decide (p = IPPROTO_TCP))

/-- Source function `is_udp`. -/
def is_udp (ctx : PacketView) (ip : Nat) : Traced Bool := do
  let p ← ip_protocol ctx ip
  pure (decide (p = IPPROTO_UDP))

/-- Source function `get_tcp_header`: `(char *)ip + (ip->ihl * 4)`. -/
def get_tcp_header (ctx : PacketView) (ip : Nat) : Traced Nat := do
  let ihl ← ip_ihl ctx ip
  pure (ip + ihl * 4)

/-- Source function `is_metadata_destination`: `ip->daddr == METADATA_IP`. -/
def is_metadata_destination (bo : ByteOrder) (ctx : PacketView) (ip : Nat) : Traced Bool := do
  let daddr ← ip_daddr bo ctx ip
  pure (decide (daddr = METADATA_IP))

/-- Source function `is_metadata_port`: `bpf_ntohs(tcp->dest) == METADATA_PORT`. -/
def is_metadata_port (bo : ByteOrder) (ctx : PacketView) (tcp : Nat) : Traced Bool := do
  let dest ← tcp_dest bo ctx tcp
  pure (decide (bpf_ntohs bo dest = METADATA_PORT))

/-- Kernel helper `bpf_strncmp` with the arguments in the order the source passes them,
`bpf_strncmp(cs, ct, count)`.  The helper is `strncmp` of `lib/string.c`: it compares at most
`count` bytes and stops after a NUL that both strings share.  `cs` points into packet memory,
`ct` is a string literal, given with its terminator. -/
def bpf_strncmp (ctx : PacketView) (cs : Nat) (ct : List Nat) : Nat → Traced Int
  | 0 => pure 0
  | count + 1 => do
    let c1 ← load8 ctx cs
    let c2 := ct.headD 0
    if c1 ≠ c2 then
      pure (if c1 < c2 then -1 else 1)
    else if c1 = 0 then
      pure 0
    else
      bpf_strncmp ctx (cs + 1) ct.tail count

/-- The loop `while (path_start < data_end && *path_start != ' ') path_start++;` run for at
most `fuel` iterations; its value is the final `path_start`. -/
def skip_to_space (ctx : PacketView) : Nat → Nat → Traced Nat
  | 0, path_start => pure path_start
  | fuel + 1, path_start =>
    if path_start < ctx.data_end then do
      let c ← load8 ctx path_start
      if c ≠ 0x20 then
        skip_to_space ctx fuel (path_start + 1)
      else
        pure path_start
    else
      pure path_start

/-- Source function `is_token_request`.  The loop is given `data_end - payload` iterations,
which is as many as it can make. -/
def is_token_request (ctx : PacketView) (tcp : Nat) : Traced Bool := do
  let doff ← tcp_doff ctx tcp
  let payload := tcp + doff * 4
  if payload + 200 > ctx.data_end then
    pure false
  else do
    let r ← bpf_strncmp ctx payload (cstr "PUT") 3
    if r = 0 then do
      let path_start ← skip_to_space ctx (ctx.data_end - payload) payload
      if path_start < ctx.data_end then do
        let r2 ← bpf_strncmp ctx (path_start + 1) TOKEN_PATH TOKEN_PATH_LEN
        if r2 = 0 then
          pure true
        else
          pure false
      else
        pure false
    else
      pure false

/-! ## Counter maps -/

/-- Contents of a `BPF_MAP_TYPE_HASH` map with `__u32` keys and `__u64` values. -/
abbrev HashMap := List (Nat × Nat)

/-- The two maps of the program. -/
structure Maps where
  blocked_attempts : HashMap
  token_requests : HashMap
  deriving DecidableEq

/-- Kernel helper `bpf_map_lookup_elem`: the value stored under `key`, if any. -/
def bpf_map_lookup_elem : HashMap → Nat → Option Nat
  | [], _ => none
  | (k, v) :: rest, key => if k = key then some v else bpf_map_lookup_elem rest key

/-- A store through the pointer `bpf_map_lookup_elem` returned for `key`. -/
def map_store : HashMap → Nat → Nat → HashMap
  | [], _, _ => []
  | (k, v) :: rest, key, value =>
    if k = key then (k, value) :: rest else (k, v) :: map_store rest key value

/-- Kernel helper `bpf_map_update_elem` with `BPF_ANY` on a map of `max_entries` entries: an
existing key is overwritten, a new key is inserted while there is room, and otherwise the call
fails and the map is unchanged (the source ignores the return value). -/
def bpf_map_update_elem (max_entries : Nat) (m : HashMap) (key value : Nat) : HashMap :=
  match bpf_map_lookup_elem m key with
  | some _ => map_store m key value
  | none => if m.length < max_entries then (key, value) :: m else m

/-- Source function `log_blocked_attempt`. -/
def log_blocked_attempt (maps : Maps) (src_ip : Nat) : Maps :=
  match bpf_map_lookup_elem maps.blocked_attempts src_ip with
  | some count =>
    { maps with blocked_attempts := map_store maps.blocked_attempts src_ip ((count + 1) % 2 ^ 64) }
  | none =>
    let initial_count := 1
    { maps with
      blocked_attempts :=
        bpf_map_update_elem blocked_attempts_max_entries maps.blocked_attempts src_ip
          initial_count }

/-- Source function `log_token_request`. -/
def log_token_request (maps : Maps) (src_ip : Nat) : Maps :=
  match bpf_map_lookup_elem maps.token_requests src_ip with
  | some count =>
    { maps with token_requests := map_store maps.token_requests src_ip ((count + 1) % 2 ^ 64) }
  | none =>
    let initial_count := 1
    { maps with
      token_requests :=
        bpf_map_update_elem token_requests_max_entries maps.token_requests src_ip
          initial_count }

/-! ## Entry points -/

/-- Source function `xdp_metadata_blocker`: the action code returned and the maps afterwards. -/
def xdp_metadata_blocker (bo : ByteOrder) (ctx : PacketView) (maps : Maps) :
    Traced (Int × Maps) := do
  let data := 0
  -- Parse Ethernet header
  let eth := data
  if data + sizeof_ethhdr > ctx.data_end then
    pure (XDP_PASS, maps)
  else do
    -- Check if this is an IP packet
    let h_proto ← eth_h_proto bo ctx eth
    if h_proto ≠ bpf_htons bo ETH_P_IP then
      pure (XDP_PASS, maps)
    else do
      -- Parse IP header
      let ip := data + sizeof_ethhdr
      if data + sizeof_ethhdr + sizeof_iphdr > ctx.data_end then
        pure (XDP_PASS, maps)
      else do
        -- Check if destination is metadata service
        let dst ← is_metadata_destination bo ctx ip
        if !dst then
          pure (XDP_PASS, maps)
        else do
          -- Check if this is a TCP packet
          let proto ← is_tcp ctx ip
          if !proto then
            pure (XDP_PASS, maps)
          else do
            -- Parse TCP header
            let tcp ← get_tcp_header ctx ip
            let ihl ← ip_ihl ctx ip
            if data + sizeof_ethhdr + ihl * 4 + sizeof_tcphdr > ctx.data_end then
              pure (XDP_PASS, maps)
            else do
              -- Check if destination port is metadata port
              let port ← is_metadata_port bo ctx tcp
              if !port then
                pure (XDP_PASS, maps)
              else do
                -- Check if this is a token request (PUT to /latest/api/token)
                let token ← is_token_request ctx tcp
                if token then do
                  -- Allow token requests
                  let saddr ← ip_saddr bo ctx ip
                  pure (XDP_PASS, log_token_request maps saddr)
                else do
                  -- Block all other metadata requests
                  let saddr ← ip_saddr bo ctx ip
                  pure (XDP_DROP, log_blocked_attempt maps saddr)

/-- Source function `tc_metadata_blocker`: the action code returned and the maps afterwards. -/
def tc_metadata_blocker (bo : ByteOrder) (ctx : PacketView) (maps : Maps) :
    Traced (Int × Maps) := do
  let data := 0
  -- Parse Ethernet header
  let eth := data
  if data + sizeof_ethhdr > ctx.data_end then
    pure (TC_ACT_OK, maps)
  else do
    -- Check if this is an IP packet
    let h_proto ← eth_h_proto bo ctx eth
    if h_proto ≠ bpf_htons bo ETH_P_IP then
      pure (TC_ACT_OK, maps)
    else do
      -- Parse IP header
      let ip := data + sizeof_ethhdr
      if data + sizeof_ethhdr + sizeof_iphdr > ctx.data_end then
        pure (TC_ACT_OK, maps)
      else do
        -- Check if destination is metadata service
        let dst ← is_metadata_destination bo ctx ip
        if !dst then
          pure (TC_ACT_OK, maps)
        else do
          -- Check if this is a TCP packet
          let proto ← is_tcp ctx ip
          if !proto then
            pure (TC_ACT_OK, maps)
          else do
            -- Parse TCP header
            let tcp ← get_tcp_header ctx ip
            let ihl ← ip_ihl ctx ip
            if data + sizeof_ethhdr + ihl * 4 + sizeof_tcphdr > ctx.data_end then
              pure (TC_ACT_OK, maps)
            else do
              -- Check if destination port is metadata port
              let port ← is_metadata_port bo ctx tcp
              if !port then
                pure (TC_ACT_OK, maps)
              else do
                -- Check if this is a token request (PUT to /latest/api/token)
                let token ← is_token_request ctx tcp
                if token then do
                  -- Allow token requests
                  let saddr ← ip_saddr bo ctx ip
                  pure (TC_ACT_OK, log_token_request maps saddr)
                else do
                  -- Block all other metadata requests
                  let saddr ← ip_saddr bo ctx ip
                  pure (TC_ACT_SHOT, log_blocked_attempt maps saddr)

/-- Source function `socket_metadata_filter`: the value returned and the maps afterwards. -/
def socket_metadata_filter (bo : ByteOrder) (ctx : PacketView) (maps : Maps) :
    Traced (Int × Maps) := do
  let data := 0
  -- Parse Ethernet header
  let eth := data
  if data + sizeof_ethhdr > ctx.data_end then
    pure (0, maps)
  else do
    -- Check if this is an IP packet
    let h_proto ← eth_h_proto bo ctx eth
    if h_proto ≠ bpf_htons bo ETH_P_IP then
      pure (0, maps)
    else do
      -- Parse IP header
      let ip := data + sizeof_ethhdr
      if data + sizeof_ethhdr + sizeof_iphdr > ctx.data_end then
        pure (0, maps)
      else do
        -- Check if destination is metadata service
        let dst ← is_metadata_destination bo ctx ip
        if !dst then
          pure (0, maps)
        else do
          -- Check if this is a TCP packet
          let proto ← is_tcp ctx ip
          if !proto then
            pure (0, maps)
          else do
            -- Parse TCP header
            let tcp ← get_tcp_header ctx ip
            let ihl ← ip_ihl ctx ip
            if data + sizeof_ethhdr + ihl * 4 + sizeof_tcphdr > ctx.data_end then
              pure (0, maps)
            else do
              -- Check if destination port is metadata port
              let port ← is_metadata_port bo ctx tcp
              if !port then
                pure (0, maps)
              else do
                -- Check if this is a token request (PUT to /latest/api/token)
                let token ← is_token_request ctx tcp
                if token then do
                  -- Allow token requests
                  let saddr ← ip_saddr bo ctx ip
                  pure (0, log_token_request maps saddr)
                else do
                  -- Block all other metadata requests
                  let saddr ← ip_saddr bo ctx ip
                  pure (-1, log_blocked_attempt maps saddr)

/-! ## Verdicts -/

/-- The three outcomes of the decision the entry points share. -/
inductive Verdict where
  | Pass
  | Allow
  | Block
  deriving DecidableEq, Repr

/-- What the body shared by the three entry points decides and does, before the action code
is chosen: an early return is `Pass` and leaves the maps alone, the branch that calls
`log_token_request` is `Allow`, the branch that calls `log_blocked_attempt` is `Block`. -/
def classify (bo : ByteOrder) (ctx : PacketView) (maps : Maps) : Traced (Verdict × Maps) := do
  let data := 0
  let eth := data
  if data + sizeof_ethhdr > ctx.data_end then
    pure (Verdict.Pass, maps)
  else do
    let h_proto ← eth_h_proto bo ctx eth
    if h_proto ≠ bpf_htons bo ETH_P_IP then
      pure (Verdict.Pass, maps)
    else do
      let ip := data + sizeof_ethhdr
      if data + sizeof_ethhdr + sizeof_iphdr > ctx.data_end then
        pure (Verdict.Pass, maps)
      else do
        let dst ← is_metadata_destination bo ctx ip
        if !dst then
          pure (Verdict.Pass, maps)
        else do
          let proto ← is_tcp ctx ip
          if !proto then
            pure (Verdict.Pass, maps)
          else do
            let tcp ← get_tcp_header ctx ip
            let ihl ← ip_ihl ctx ip
            if data + sizeof_ethhdr + ihl * 4 + sizeof_tcphdr > ctx.data_end then
              pure (Verdict.Pass, maps)
            else do
              let port ← is_metadata_port bo ctx tcp
              if !port then
                pure (Verdict.Pass, maps)
              else do
                let token ← is_token_request ctx tcp
                if token then do
                  let saddr ← ip_saddr bo ctx ip
                  pure (Verdict.Allow, log_token_request maps saddr)
                else do
                  let saddr ← ip_saddr bo ctx ip
                  pure (Verdict.Block, log_blocked_attempt maps saddr)

/-- Action code of the XDP hook for a verdict. -/
def xdp_action : Verdict → Int
  | .Pass => XDP_PASS
  | .Allow => XDP_PASS
  | .Block => XDP_DROP

/-- Action code of the traffic-control hook for a verdict. -/
def tc_action : Verdict → Int
  | .Pass => TC_ACT_OK
  | .Allow => TC_ACT_OK
  | .Block => TC_ACT_SHOT

/-- Return value of the socket filter for a verdict. -/
def socket_action : Verdict → Int
  | .Pass => 0
  | .Allow => 0
  | .Block => -1

/-! ## Vocabulary of the properties -/

/-- The byte at offset `i`, as the program loads it. -/
def byte (ctx : PacketView) (i : Nat) : Nat :=
  (load8 ctx i).val

/-- The `n` bytes at offsets `off`, `off + 1`, ... -/
def bytes_at (ctx : PacketView) (off : Nat) : Nat → List Nat
  | 0 => []
  | n + 1 => byte ctx off :: bytes_at ctx (off + 1) n

/-- The bytes of a string, without a terminator. -/
def ascii (s : String) : List Nat :=
  s.toList.map Char.toNat

/-- Offset `s` holds the first space at or after offset `payload`. -/
def first_space (ctx : PacketView) (payload s : Nat) : Prop :=
  payload ≤ s ∧ byte ctx s = 0x20 ∧ ∀ i, payload ≤ i → i < s → byte ctx i ≠ 0x20

/-- Offset of the TCP header: `get_tcp_header` applied to the IP header at offset 14. -/
def tcp_start (ctx : PacketView) : Nat :=
  (get_tcp_header ctx 14).val

/-- Offset of the TCP payload: `(char *)tcp + (tcp->doff * 4)`. -/
def payload_start (ctx : PacketView) (tcp : Nat) : Nat :=
  tcp + (tcp_doff ctx tcp).val * 4

/-- Some header check of the entry points fails, in the order they are made: fewer than 14
bytes, not IPv4, fewer than 14 + 20 bytes, `is_metadata_destination` fails, `is_tcp` fails,
fewer than 14 + ihl*4 + 20 bytes, `is_metadata_port` fails. -/
def stops_early (bo : ByteOrder) (ctx : PacketView) : Prop :=
  ctx.data_end < 14 ∨
  (eth_h_proto bo ctx 0).val ≠ bpf_htons bo ETH_P_IP ∨
  ctx.data_end < 14 + 20 ∨
  (is_metadata_destination bo ctx 14).val = false ∨
  (is_tcp ctx 14).val = false ∨
  ctx.data_end < 14 + (ip_ihl ctx 14).val * 4 + 20 ∨
  (is_metadata_port bo ctx (tcp_start ctx)).val = false

instance (bo : ByteOrder) (ctx : PacketView) : Decidable (stops_early bo ctx) := by
  unfold stops_early
  infer_instance

/-- The packet ends before the end of its Ethernet header, of its IP header, or of its TCP
header with options (`tcp + doff*4`). -/
def truncated_in_headers (ctx : PacketView) : Prop :=
  ctx.data_end < 14 ∨
  ctx.data_end < 14 + 20 ∨
  ctx.data_end < 14 + (ip_ihl ctx 14).val * 4 ∨
  ctx.data_end < payload_start ctx (tcp_start ctx)

instance (ctx : PacketView) : Decidable (truncated_in_headers ctx) := by
  unfold truncated_in_headers
  infer_instance

/-- The packet ends before the end of its Ethernet header, of its IP header, or of the 20
bytes of `struct tcphdr`. -/
def truncated_in_fixed_headers (ctx : PacketView) : Prop :=
  ctx.data_end < 14 ∨
  ctx.data_end < 14 + 20 ∨
  ctx.data_end < 14 + (ip_ihl ctx 14).val * 4 ∨
  ctx.data_end < tcp_start ctx + 20

instance (ctx : PacketView) : Decidable (truncated_in_fixed_headers ctx) := by
  unfold truncated_in_fixed_headers
  infer_instance

/-! ## Building packets -/

/-- Memory holding `bytes` from `data` on and `fill` everywhere after them. -/
def mem_of (bytes : List Nat) (fill : Nat) : Nat → Nat :=
  fun i => bytes.getD i fill

/-- A packet whose captured bytes are exactly `bytes`; memory after `data_end` reads `fill`. -/
def packet_of (bytes : List Nat) (fill : Nat) : PacketView :=
  ⟨mem_of bytes fill, bytes.length⟩

/-- A packet whose captured bytes are `bytes` and whose memory continues with `beyond`. -/
def packet_with_tail (bytes beyond : List Nat) : PacketView :=
  ⟨mem_of (bytes ++ beyond) 0, bytes.length⟩

/-- An Ethernet/IPv4/TCP frame: 20-byte IP header, source `10.0.0.5`, destination address
`d0.d1.d2.d3`, destination port `port`, TCP data offset `doff`, then `rest`. -/
def frame_with_doff (d0 d1 d2 d3 port doff : Nat) (rest : List Nat) : List Nat :=
  [0, 0, 0, 0, 0, 1, 0, 0, 0, 0, 0, 2, 0x08, 0x00] ++
  [0x45, 0, 0, 0, 0, 0, 0, 0, 64, 6, 0, 0, 10, 0, 0, 5, d0, d1, d2, d3] ++
  [0xC0, 0x00, port / 256, port % 256, 0, 0, 0, 0, 0, 0, 0, 0, doff * 16, 0x18, 0, 0, 0, 0, 0, 0] ++
  rest

/-- A frame with a 20-byte TCP header followed by `payload`. -/
def frame (d0 d1 d2 d3 port : Nat) (payload : List Nat) : List Nat :=
  frame_with_doff d0 d1 d2 d3 port 5 payload

/-- A frame to the address whose four bytes load as `METADATA_IP` on a little-endian host,
`84.146.22.254`. -/
def frame_to_constant (port : Nat) (payload : List Nat) : List Nat :=
  frame 0x54 0x92 0x16 0xFE port payload

/-- A frame to the address whose four bytes load as `METADATA_IP` on a big-endian host,
`254.22.146.84`. -/
def frame_to_constant_be (port : Nat) (payload : List Nat) : List Nat :=
  frame 0xFE 0x16 0x92 0x54 port payload

/-- Source address `10.0.0.5` as loaded on a little-endian host. -/
def src_10_0_0_5 : Nat := 0x0500000A

/-- Source address `10.0.0.5` as loaded on a big-endian host. -/
def src_10_0_0_5_be : Nat := 0x0A000005

/-- Both maps empty. -/
def no_counts : Maps := ⟨[], []⟩

/-- An IMDSv1 read. -/
def get_request : List Nat :=
  ascii "GET /latest/meta-data/ HTTP/1.1\r\nHost: 169.254.169.254\r\nAccept: text/plain\r\n\r\n"

/-- An IMDSv2 token request as a client sends it, 254 bytes. -/
def token_request : List Nat :=
  ascii "PUT /latest/api/token HTTP/1.1\r\nHost: 169.254.169.254\r\n" ++
  ascii "User-Agent: curl/8.5.0\r\nAccept: text/plain\r\n" ++
  ascii "X-aws-ec2-metadata-token-ttl-seconds: 21600\r\nConnection: keep-alive\r\n" ++
  ascii "Accept-Encoding: gzip, deflate, br\r\n" ++
  ascii "X-Request-Id: 0123456789abcdef0123456789abcdef\r\n\r\n"

/-- The same request sent to `/latest/api/tokens`. -/
def tokens_request : List Nat :=
  ascii "PUT /latest/api/tokens HTTP/1.1\r\nHost: 169.254.169.254\r\n" ++
  ascii "User-Agent: curl/8.5.0\r\nAccept: text/plain\r\n" ++
  ascii "X-aws-ec2-metadata-token-ttl-seconds: 21600\r\nConnection: keep-alive\r\n" ++
  ascii "Accept-Encoding: gzip, deflate, br\r\n" ++
  ascii "X-Request-Id: 0123456789abcdef0123456789abcdef\r\n\r\n"

/-- The 22 bytes `PUT /latest/api/token` and a NUL: the method, the space and the 18 bytes
the path comparison covers. -/
def token_request_nul : List Nat :=
  ascii "PUT /latest/api/token" ++ [0]

/-- A payload of exactly 200 bytes whose only space is its last byte. -/
def space_at_end : List Nat :=
  ascii "PUT" ++ List.replicate 196 0x41 ++ [0x20]

/-- The frame carrying `space_at_end` to the matched address, 254 bytes, with `beyond` in the
memory that follows `data_end`. -/
def space_at_end_packet (beyond : List Nat) : PacketView :=
  packet_with_tail (frame_to_constant 80 space_at_end) beyond

/-- A payload of 200 bytes: `token_request_nul` followed by 178 bytes `A`. -/
def token_request_nul_padded : List Nat :=
  token_request_nul ++ List.replicate 178 0x41

/-- Both maps at capacity: addresses 0..999 blocked and 0..99 allowed, each counted 7 times. -/
def full_maps : Maps :=
  ⟨(List.range 1000).map (fun i => (i, 7)), (List.range 100).map (fun i => (i, 7))⟩

/-- A payload of 300 bytes with no space among its first 253: `PUT`, 250 bytes `A`, a space,
`/latest/api/token`, a NUL and 28 more bytes `A`. -/
def late_space : List Nat :=
  ascii "PUT" ++ List.replicate 250 0x41 ++ ascii " /latest/api/token" ++ [0] ++
    List.replicate 28 0x41

/-- A payload of 200 bytes without a space: `PUT` and 197 bytes `A`. -/
def no_space : List Nat :=
  ascii "PUT" ++ List.replicate 197 0x41

/-- A payload of 200 bytes whose method token is `PUTXYZ`, followed by a space,
`/latest/api/token`, a NUL and bytes `A`. -/
def putxyz_request : List Nat :=
  ascii "PUTXYZ /latest/api/token" ++ [0] ++ List.replicate 175 0x41

/-- The blocked-attempts map at capacity (addresses 0..999, each counted 7 times) and the
token-requests map empty. -/
def blocked_full_maps : Maps :=
  ⟨full_maps.blocked_attempts, []⟩

/-- The token-requests map at capacity (addresses 0..99, each counted 7 times) and the
blocked-attempts map empty. -/
def token_full_maps : Maps :=
  ⟨[], full_maps.token_requests⟩

/-! ## Concurrent calls of `log_blocked_attempt` -/

/-- Where one call of `log_blocked_attempt` stands between two of its accesses to the map:
before `bpf_map_lookup_elem`; with `count` not NULL and `*count` not read yet; with `*count`
read as `v` and not written back yet (the statement `(*count)++` is a load and a store, not
an atomic add); with `count` NULL and `bpf_map_update_elem` not called yet; returned. -/
inductive CallState where
  | start
  | found
  | loaded (v : Nat)
  | absent
  | done
  deriving DecidableEq, Repr

/-- The next access of a call of `log_blocked_attempt(src_ip)` to the blocked-attempts map
`m`: the map afterwards and where the call then stands. -/
def call_step (src_ip : Nat) (m : HashMap) : CallState → HashMap × CallState
  | .start =>
    match bpf_map_lookup_elem m src_ip with
    | some _ => (m, .found)
    | none => (m, .absent)
  | .found => (m, .loaded ((bpf_map_lookup_elem m src_ip).getD 0))
  | .loaded v => (map_store m src_ip ((v + 1) % 2 ^ 64), .done)
  | .absent => (bpf_map_update_elem blocked_attempts_max_entries m src_ip 1, .done)
  | .done => (m, .done)

/-- Calls of `log_blocked_attempt(src_ip)` in several execution contexts sharing the map:
context `i` makes its next access. -/
def context_step (src_ip : Nat) (s : HashMap × List CallState) (i : Nat) :
    HashMap × List CallState :=
  match s.2[i]? with
  | none => s
  | some c => ((call_step src_ip s.1 c).1, s.2.set i (call_step src_ip s.1 c).2)

/-- An interleaving: the contexts make their accesses in the order `schedule` lists them. -/
def run_schedule (src_ip : Nat) (schedule : List Nat) (s : HashMap × List CallState) :
    HashMap × List CallState :=
  schedule.foldl (context_step src_ip) s

/-- The number of calls that have returned. -/
def done_count : List CallState → Nat
  | [] => 0
  | c :: cs => (if c = CallState.done then 1 else 0) + done_count cs

/-- What holds of the shared map at every point of every interleaving that started from the
map `m0` without `src_ip`: while the address is absent nothing was written and no call has
got past the lookup with a pointer; once it is present its count is at least 1 and at most
the number of calls that returned, and so is every value a call has loaded. -/
def race_invariant (src_ip : Nat) (m0 : HashMap) (s : HashMap × List CallState) : Prop :=
  (bpf_map_lookup_elem s.1 src_ip = none →
    s.1 = m0 ∧ done_count s.2 = 0 ∧
      ∀ c ∈ s.2, c = CallState.start ∨ c = CallState.absent) ∧
  (∀ c, bpf_map_lookup_elem s.1 src_ip = some c →
    1 ≤ c ∧ c ≤ done_count s.2 ∧ ∀ v, CallState.loaded v ∈ s.2 → v ≤ done_count s.2)

/-! ## Traced values -/

@[simp] theorem Traced.val_pure {α : Type} (a : α) : (pure a : Traced α).val = a := rfl

@[simp] theorem Traced.reads_pure {α : Type} (a : α) : (pure a : Traced α).reads = [] := rfl

@[simp] theorem Traced.val_bind {α β : Type} (x : Traced α) (f : α → Traced β) :
    (x >>= f).val = (f x.val).val := rfl

@[simp] theorem Traced.reads_bind {α β : Type} (x : Traced α) (f : α → Traced β) :
    (x >>= f).reads = x.reads ++ (f x.val).reads := rfl

theorem Traced.val_ite {α : Type} (c : Prop) [Decidable c] (x y : Traced α) :
    (if c then x else y).val = if c then x.val else y.val := by
  split <;> rfl

/-! ## Bytes -/

theorem bytes_at_length (ctx : PacketView) (off n : Nat) : (bytes_at ctx off n).length = n := by
  induction n generalizing off with
  | zero => rfl
  | succ n ih => simp [bytes_at, ih]

theorem bytes_at_succ_right (ctx : PacketView) (off n : Nat) :
    bytes_at ctx off (n + 1) = bytes_at ctx off n ++ [byte ctx (off + n)] := by
  induction n generalizing off with
  | zero => simp [bytes_at]
  | succ n ih =>
    rw [bytes_at, ih (off + 1), bytes_at]
    simp [Nat.add_assoc, Nat.add_comm 1 n]

theorem byte_of_bytes_at (ctx : PacketView) (off n : Nat) (l : List Nat)
    (h : bytes_at ctx off n = l) (i : Nat) (hi : i < n) : byte ctx (off + i) = l.getD i 0 := by
  induction n generalizing off l i with
  | zero => omega
  | succ n ih =>
    rw [bytes_at] at h
    subst h
    cases i with
    | zero => simp
    | succ i =>
      have := ih (off + 1) _ rfl i (by omega)
      simpa [Nat.add_assoc, Nat.add_comm 1 i] using this

theorem cstr_PUT : cstr "PUT" = [0x50, 0x55, 0x54] ++ 0 :: [] := by decide

theorem ascii_PUT : ascii "PUT" = [0x50, 0x55, 0x54] := by decide

theorem TOKEN_PATH_eq : TOKEN_PATH = ascii "/latest/api/token" ++ 0 :: [] := rfl

theorem ascii_path_ne_zero : ∀ x ∈ ascii "/latest/api/token", x ≠ 0 := by decide

theorem ascii_path_length : (ascii "/latest/api/token").length = 17 := by decide

/-! ## The string comparison and the scan -/

theorem strncmp_step (ctx : PacketView) (cs : Nat) (ct : List Nat) (count : Nat) :
    (bpf_strncmp ctx cs ct (count + 1)).val =
      if byte ctx cs ≠ ct.headD 0 then (if byte ctx cs < ct.headD 0 then -1 else 1)
      else if byte ctx cs = 0 then 0
      else (bpf_strncmp ctx (cs + 1) ct.tail count).val := by
  rw [bpf_strncmp]
  simp only [Traced.val_bind, Traced.val_ite, Traced.val_pure, byte]

/-- Comparing no further than a NUL-free prefix of the literal: equal exactly when the bytes
are that prefix. -/
theorem strncmp_prefix (ctx : PacketView) (l t : List Nat) (hl : ∀ x ∈ l, x ≠ 0) (cs : Nat) :
    (bpf_strncmp ctx cs (l ++ t) l.length).val = 0 ↔ bytes_at ctx cs l.length = l := by
  induction l generalizing cs with
  | nil => simp [bpf_strncmp, bytes_at]
  | cons x l ih =>
    have hx : x ≠ 0 := hl x (List.mem_cons_self _ _)
    have hl2 : ∀ y ∈ l, y ≠ 0 := fun y hy => hl y (List.mem_cons_of_mem _ hy)
    simp only [List.length_cons, List.cons_append, strncmp_step, List.headD_cons, List.tail_cons,
      bytes_at, List.cons.injEq]
    by_cases h : byte ctx cs = x
    · subst h
      simp [hx, ih hl2]
    · simp only [ne_eq, h, not_false_eq_true, if_true, false_and, iff_false]
      split <;> decide

/-- Comparing beyond the terminator of the literal: equal exactly when the bytes are the
literal followed by a NUL. -/
theorem strncmp_whole (ctx : PacketView) (l t : List Nat) (hl : ∀ x ∈ l, x ≠ 0) (cs n : Nat)
    (hn : l.length < n) :
    (bpf_strncmp ctx cs (l ++ 0 :: t) n).val = 0 ↔
      bytes_at ctx cs (l.length + 1) = l ++ [0] := by
  induction l generalizing cs n with
  | nil =>
    obtain ⟨m, rfl⟩ : ∃ m, n = m + 1 := ⟨n - 1, by simp at hn; omega⟩
    simp only [List.nil_append, strncmp_step, List.headD_cons, List.length_nil, Nat.zero_add,
      bytes_at, List.cons.injEq, and_true]
    by_cases h : byte ctx cs = 0
    · simp [h]
    · simp only [ne_eq, h, not_false_eq_true, if_true, iff_false]
      split <;> decide
  | cons x l ih =>
    have hx : x ≠ 0 := hl x (List.mem_cons_self _ _)
    have hl2 : ∀ y ∈ l, y ≠ 0 := fun y hy => hl y (List.mem_cons_of_mem _ hy)
    obtain ⟨m, rfl⟩ : ∃ m, n = m + 1 := ⟨n - 1, by simp at hn; omega⟩
    have hm : l.length < m := by simp at hn; omega
    rw [List.length_cons, bytes_at]
    simp only [List.cons_append, strncmp_step, List.headD_cons, List.tail_cons, List.cons.injEq]
    by_cases h : byte ctx cs = x
    · subst h
      simp [hx, ih hl2 _ _ hm]
    · simp only [ne_eq, h, not_false_eq_true, if_true, false_and, iff_false]
      split <;> decide

/-- With enough iterations the loop stops at the first space before `data_end`, or at
`data_end` when there is none. -/
theorem skip_to_space_spec (ctx : PacketView) (fuel p : Nat) (hf : ctx.data_end ≤ p + fuel) :
    p ≤ (skip_to_space ctx fuel p).val ∧
    (∀ i, p ≤ i → i < (skip_to_space ctx fuel p).val → byte ctx i ≠ 0x20) ∧
    ((skip_to_space ctx fuel p).val < ctx.data_end →
      byte ctx (skip_to_space ctx fuel p).val = 0x20) ∧
    (p ≤ ctx.data_end → (skip_to_space ctx fuel p).val ≤ ctx.data_end) := by
  induction fuel generalizing p with
  | zero =>
    simp only [skip_to_space, Traced.val_pure]
    refine ⟨le_refl _, fun i h1 h2 => by omega, fun h => by exfalso; omega, fun h => h⟩
  | succ fuel ih =>
    rw [skip_to_space]
    by_cases h1 : p < ctx.data_end
    · by_cases h2 : byte ctx p = 0x20
      · have h2' : (load8 ctx p).val = 0x20 := h2
        simp only [h1, if_true, Traced.val_bind, Traced.val_ite, h2', ne_eq, not_true_eq_false,
          if_false, Traced.val_pure]
        exact ⟨le_refl _, fun i h3 h4 => by omega, fun _ => h2, fun h => h⟩
      · have h2' : ¬ (load8 ctx p).val = 0x20 := h2
        simp only [h1, if_true, Traced.val_bind, Traced.val_ite, h2', ne_eq, not_false_eq_true]
        obtain ⟨a, b, c, d⟩ := ih (p + 1) (by omega)
        refine ⟨by omega, fun i h3 h4 => ?_, c, fun _ => d (by omega)⟩
        by_cases hi : i = p
        · subst hi; exact h2
        · exact b i (by omega) h4
    · simp only [h1, if_false, Traced.val_pure]
      exact ⟨le_refl _, fun i h3 h4 => by omega, fun h => h.elim, fun h => h⟩

theorem first_space_unique (ctx : PacketView) (payload s s2 : Nat)
    (h : first_space ctx payload s) (h2 : first_space ctx payload s2) : s = s2 := by
  obtain ⟨a, b, c⟩ := h
  obtain ⟨a2, b2, c2⟩ := h2
  by_contra hne
  rcases Nat.lt_or_gt_of_ne hne with hlt | hgt
  · exact c2 s a hlt b
  · exact c s2 a2 hgt b2

/-! ## The request-line matcher -/

theorem is_token_request_val (ctx : PacketView) (tcp : Nat) :
    (is_token_request ctx tcp).val =
      if payload_start ctx tcp + 200 > ctx.data_end then false
      else if (bpf_strncmp ctx (payload_start ctx tcp) (cstr "PUT") 3).val = 0 then
        if (skip_to_space ctx (ctx.data_end - payload_start ctx tcp)
              (payload_start ctx tcp)).val < ctx.data_end then
          if (bpf_strncmp ctx ((skip_to_space ctx (ctx.data_end - payload_start ctx tcp)
              (payload_start ctx tcp)).val + 1) TOKEN_PATH TOKEN_PATH_LEN).val = 0
          then true else false
        else false
      else false := by
  unfold is_token_request payload_start
  simp only [Traced.val_bind, Traced.val_ite, Traced.val_pure]

/-- The matcher accepts exactly when 200 payload bytes are captured, the payload starts with
`PUT`, and the first space lies before `data_end` and is followed by the 18 bytes of
`TOKEN_PATH`, terminator included. -/
theorem is_token_request_iff (ctx : PacketView) (tcp : Nat) :
    (is_token_request ctx tcp).val = true ↔
      payload_start ctx tcp + 200 ≤ ctx.data_end ∧
      bytes_at ctx (payload_start ctx tcp) 3 = ascii "PUT" ∧
      ∃ s, first_space ctx (payload_start ctx tcp) s ∧ s < ctx.data_end ∧
        bytes_at ctx (s + 1) 18 = TOKEN_PATH := by
  rw [is_token_request_val]
  generalize payload_start ctx tcp = payload
  have hput : (bpf_strncmp ctx payload (cstr "PUT") 3).val = 0 ↔
      bytes_at ctx payload 3 = ascii "PUT" := by
    rw [cstr_PUT, ascii_PUT]
    exact strncmp_prefix ctx [0x50, 0x55, 0x54] _ (by decide) payload
  have hpath : ∀ q, (bpf_strncmp ctx q TOKEN_PATH TOKEN_PATH_LEN).val = 0 ↔
      bytes_at ctx q 18 = TOKEN_PATH := by
    intro q
    have := strncmp_whole ctx (ascii "/latest/api/token") [] ascii_path_ne_zero q TOKEN_PATH_LEN
      (by rw [ascii_path_length]; decide)
    rw [ascii_path_length] at this
    exact this
  obtain ⟨a, b, c, d⟩ := skip_to_space_spec ctx (ctx.data_end - payload) payload (by omega)
  generalize (skip_to_space ctx (ctx.data_end - payload) payload).val = s0 at a b c d
  by_cases h1 : payload + 200 > ctx.data_end
  · simp only [h1, if_true]
    constructor
    · intro h; cases h
    · rintro ⟨h, _⟩; omega
  · simp only [h1, if_false, hput, hpath]
    by_cases h2 : bytes_at ctx payload 3 = ascii "PUT"
    · simp only [h2, if_true, true_and]
      by_cases h3 : s0 < ctx.data_end
      · simp only [h3, if_true]
        by_cases h4 : bytes_at ctx (s0 + 1) 18 = TOKEN_PATH
        · simp only [h4, if_true, true_iff]
          exact ⟨by omega, s0, ⟨a, c h3, b⟩, h3, h4⟩
        · simp only [h4, if_false]
          constructor
          · intro h; cases h
          · rintro ⟨_, s, hs, hlt, hb⟩
            have : s0 = s := first_space_unique ctx payload s0 s ⟨a, c h3, b⟩ hs
            subst this
            exact absurd hb h4
      · simp only [h3, if_false]
        constructor
        · intro h; cases h
        · rintro ⟨_, s, hs, hlt, hb⟩
          exfalso
          obtain ⟨hs1, hs2, hs3⟩ := hs
          by_cases hle : s0 ≤ s
          · omega
          · exact b s hs1 (by omega) hs2
    · simp only [h2, if_false, false_and, and_false]
      constructor
      · intro h; cases h
      · intro h; exact h.elim

/-- Without 200 captured payload bytes the matcher reports no match. -/
theorem is_token_request_short (ctx : PacketView) (tcp : Nat)
    (h : ctx.data_end < payload_start ctx tcp + 200) : (is_token_request ctx tcp).val = false := by
  rw [is_token_request_val, if_pos (by omega)]

/-! ## The decision of the entry points -/

theorem classify_val (bo : ByteOrder) (ctx : PacketView) (maps : Maps) :
    (classify bo ctx maps).val =
      if ctx.data_end < 14 then (Verdict.Pass, maps)
      else if (eth_h_proto bo ctx 0).val ≠ bpf_htons bo ETH_P_IP then (Verdict.Pass, maps)
      else if ctx.data_end < 14 + 20 then (Verdict.Pass, maps)
      else if (is_metadata_destination bo ctx 14).val = false then (Verdict.Pass, maps)
      else if (is_tcp ctx 14).val = false then (Verdict.Pass, maps)
      else if ctx.data_end < 14 + (ip_ihl ctx 14).val * 4 + 20 then (Verdict.Pass, maps)
      else if (is_metadata_port bo ctx (tcp_start ctx)).val = false then (Verdict.Pass, maps)
      else if (is_token_request ctx (tcp_start ctx)).val = true then
        (Verdict.Allow, log_token_request maps (ip_saddr bo ctx 14).val)
      else (Verdict.Block, log_blocked_attempt maps (ip_saddr bo ctx 14).val) := by
  unfold classify tcp_start
  simp only [sizeof_ethhdr, sizeof_iphdr, sizeof_tcphdr, Nat.zero_add, Traced.val_ite,
    Traced.val_bind, Traced.val_pure, gt_iff_lt, Bool.not_eq_true']

theorem xdp_metadata_blocker_val (bo : ByteOrder) (ctx : PacketView) (maps : Maps) :
    (xdp_metadata_blocker bo ctx maps).val =
      if ctx.data_end < 14 then (XDP_PASS, maps)
      else if (eth_h_proto bo ctx 0).val ≠ bpf_htons bo ETH_P_IP then (XDP_PASS, maps)
      else if ctx.data_end < 14 + 20 then (XDP_PASS, maps)
      else if (is_metadata_destination bo ctx 14).val = false then (XDP_PASS, maps)
      else if (is_tcp ctx 14).val = false then (XDP_PASS, maps)
      else if ctx.data_end < 14 + (ip_ihl ctx 14).val * 4 + 20 then (XDP_PASS, maps)
      else if (is_metadata_port bo ctx (tcp_start ctx)).val = false then (XDP_PASS, maps)
      else if (is_token_request ctx (tcp_start ctx)).val = true then
        (XDP_PASS, log_token_request maps (ip_saddr bo ctx 14).val)
      else (XDP_DROP, log_blocked_attempt maps (ip_saddr bo ctx 14).val) := by
  unfold xdp_metadata_blocker tcp_start
  simp only [sizeof_ethhdr, sizeof_iphdr, sizeof_tcphdr, Nat.zero_add, Traced.val_ite,
    Traced.val_bind, Traced.val_pure, gt_iff_lt, Bool.not_eq_true']

/-- The XDP entry point returns the action of the verdict and leaves the maps as the decision
left them. -/
theorem xdp_metadata_blocker_eq_classify (bo : ByteOrder) (ctx : PacketView) (maps : Maps) :
    (xdp_metadata_blocker bo ctx maps).val =
      (xdp_action (classify bo ctx maps).val.1, (classify bo ctx maps).val.2) := by
  rw [xdp_metadata_blocker_val, classify_val]
  repeat' split
  all_goals rfl

/-- An early return: verdict `Pass`, maps untouched. -/
theorem classify_of_stops_early (bo : ByteOrder) (ctx : PacketView) (maps : Maps)
    (h : stops_early bo ctx) : (classify bo ctx maps).val = (Verdict.Pass, maps) := by
  rw [classify_val]
  unfold stops_early at h
  repeat' split
  all_goals first | rfl | (exfalso; tauto)

/-- No early return: the matcher decides between `Allow` and `Block`. -/
theorem classify_of_not_stops_early (bo : ByteOrder) (ctx : PacketView) (maps : Maps)
    (h : ¬ stops_early bo ctx) :
    (classify bo ctx maps).val =
      if (is_token_request ctx (tcp_start ctx)).val = true then
        (Verdict.Allow, log_token_request maps (ip_saddr bo ctx 14).val)
      else (Verdict.Block, log_blocked_attempt maps (ip_saddr bo ctx 14).val) := by
  rw [classify_val]
  unfold stops_early at h
  simp only [not_or] at h
  obtain ⟨h1, h2, h3, h4, h5, h6, h7⟩ := h
  rw [if_neg h1, if_neg h2, if_neg h3, if_neg h4, if_neg h5, if_neg h6, if_neg h7]

/-! ## The destination address -/

theorem byte_lt (ctx : PacketView) (i : Nat) : byte ctx i < 256 :=
  Nat.mod_lt _ (by decide)

theorem is_metadata_destination_val (bo : ByteOrder) (ctx : PacketView) (ip : Nat) :
    (is_metadata_destination bo ctx ip).val =
      decide ((match bo with
        | .little => byte ctx (ip + 16) + 256 * byte ctx (ip + 16 + 1) +
            65536 * byte ctx (ip + 16 + 2) + 16777216 * byte ctx (ip + 16 + 3)
        | .big => 16777216 * byte ctx (ip + 16) + 65536 * byte ctx (ip + 16 + 1) +
            256 * byte ctx (ip + 16 + 2) + byte ctx (ip + 16 + 3)) = METADATA_IP) := by
  cases bo <;> rfl

/-- The address the program matches is the one whose bytes load as `METADATA_IP`:
`84.146.22.254` on a little-endian host, `254.22.146.84` on a big-endian one. -/
theorem is_metadata_destination_iff (bo : ByteOrder) (ctx : PacketView) (ip : Nat) :
    (is_metadata_destination bo ctx ip).val = true ↔
      bytes_at ctx (ip + 16) 4 =
        (match bo with
          | .little => [0x54, 0x92, 0x16, 0xFE]
          | .big => [0xFE, 0x16, 0x92, 0x54]) := by
  have h0 := byte_lt ctx (ip + 16)
  have h1 := byte_lt ctx (ip + 16 + 1)
  have h2 := byte_lt ctx (ip + 16 + 2)
  have h3 := byte_lt ctx (ip + 16 + 3)
  rw [is_metadata_destination_val]
  simp only [bytes_at, METADATA_IP, decide_eq_true_eq, Nat.add_assoc, Nat.reduceAdd]
  simp only [Nat.add_assoc, Nat.reduceAdd] at h0 h1 h2 h3
  cases bo <;> simp only [List.cons.injEq, and_true] <;> omega

/-- A packet addressed to `169.254.169.254` fails `is_metadata_destination`. -/
theorem is_metadata_destination_of_metadata_address (bo : ByteOrder) (ctx : PacketView)
    (ip : Nat) (h : bytes_at ctx (ip + 16) 4 = [169, 254, 169, 254]) :
    (is_metadata_destination bo ctx ip).val = false := by
  cases hb : (is_metadata_destination bo ctx ip).val with
  | false => rfl
  | true =>
    rw [is_metadata_destination_iff, h] at hb
    cases bo <;> simp at hb

/-- Every packet addressed to `169.254.169.254` is passed by the XDP entry point, and
nothing is counted. -/
theorem xdp_of_metadata_address (bo : ByteOrder) (ctx : PacketView) (maps : Maps)
    (h : bytes_at ctx 30 4 = [169, 254, 169, 254]) :
    (xdp_metadata_blocker bo ctx maps).val = (XDP_PASS, maps) := by
  have hs : stops_early bo ctx :=
    Or.inr (Or.inr (Or.inr (Or.inl (is_metadata_destination_of_metadata_address bo ctx 14 h))))
  rw [xdp_metadata_blocker_eq_classify, classify_of_stops_early bo ctx maps hs]
  rfl

set_option maxRecDepth 1000000 in
/-- C1 (code bug).  An Ethernet/IPv4/TCP packet with complete headers to `169.254.169.254`
port 80 carrying `GET /latest/meta-data/ HTTP/1.1` is passed on either byte order, not
blocked, and the blocked-attempts map, empty before, still has no entry for the source
address `10.0.0.5`: `METADATA_IP` is not the address `169.254.169.254`. -/
theorem get_to_metadata_address_is_passed :
    (xdp_metadata_blocker .little (packet_of (frame 169 254 169 254 80 get_request) 0)
      no_counts).val = (XDP_PASS, no_counts) ∧
    (xdp_metadata_blocker .big (packet_of (frame 169 254 169 254 80 get_request) 0)
      no_counts).val = (XDP_PASS, no_counts) ∧
    (classify .little (packet_of (frame 169 254 169 254 80 get_request) 0)
      no_counts).val.1 = Verdict.Pass ∧
    (classify .big (packet_of (frame 169 254 169 254 80 get_request) 0)
      no_counts).val.1 = Verdict.Pass ∧
    bpf_map_lookup_elem
      (xdp_metadata_blocker .little (packet_of (frame 169 254 169 254 80 get_request) 0)
        no_counts).val.2.blocked_attempts src_10_0_0_5 = none ∧
    bpf_map_lookup_elem
      (xdp_metadata_blocker .big (packet_of (frame 169 254 169 254 80 get_request) 0)
        no_counts).val.2.blocked_attempts src_10_0_0_5_be = none := by
  decide

set_option maxRecDepth 1000000 in
/-- C2 (code bug).  A packet to `84.146.22.254` port 80 on a little-endian host, and one to
`254.22.146.84` port 80 on a big-endian host, is dropped and counted as a blocked attempt,
although its destination address is not `169.254.169.254`. -/
theorem other_address_is_dropped :
    bytes_at (packet_of (frame_to_constant 80 get_request) 0) 30 4 = [84, 146, 22, 254] ∧
    (xdp_metadata_blocker .little (packet_of (frame_to_constant 80 get_request) 0)
      no_counts).val = (XDP_DROP, ⟨[(src_10_0_0_5, 1)], []⟩) ∧
    (classify .little (packet_of (frame_to_constant 80 get_request) 0)
      no_counts).val.1 = Verdict.Block ∧
    bytes_at (packet_of (frame_to_constant_be 80 get_request) 0) 30 4 = [254, 22, 146, 84] ∧
    (xdp_metadata_blocker .big (packet_of (frame_to_constant_be 80 get_request) 0)
      no_counts).val = (XDP_DROP, ⟨[(src_10_0_0_5_be, 1)], []⟩) ∧
    (classify .big (packet_of (frame_to_constant_be 80 get_request) 0)
      no_counts).val.1 = Verdict.Block := by
  decide

set_option maxRecDepth 1000000 in
/-- C3 (code bug).  The 254-byte payload `PUT /latest/api/token HTTP/1.1` with its headers is
not matched by `is_token_request`, and the packet carrying it to the address the program
matches is dropped: `TOKEN_PATH_LEN` is 18 for a path of 17 bytes, so the comparison also
requires the byte after the path to be the NUL that ends the literal. -/
theorem token_request_is_not_matched :
    200 ≤ token_request.length ∧
    bytes_at (packet_of (frame_to_constant 80 token_request) 0) 54 30 =
      ascii "PUT /latest/api/token HTTP/1.1" ∧
    (is_token_request (packet_of (frame_to_constant 80 token_request) 0) 34).val = false ∧
    (xdp_metadata_blocker .little (packet_of (frame_to_constant 80 token_request) 0)
      no_counts).val = (XDP_DROP, ⟨[(src_10_0_0_5, 1)], []⟩) ∧
    (classify .little (packet_of (frame_to_constant 80 token_request) 0)
      no_counts).val.1 = Verdict.Block := by
  decide

theorem tcp_start_eq (ctx : PacketView) : tcp_start ctx = 14 + (ip_ihl ctx 14).val * 4 := rfl

theorem stops_early_of_truncated (bo : ByteOrder) (ctx : PacketView)
    (h : truncated_in_fixed_headers ctx) : stops_early bo ctx := by
  unfold truncated_in_fixed_headers at h
  rw [tcp_start_eq] at h
  unfold stops_early
  rcases h with h | h | h | h
  · exact Or.inl h
  · exact Or.inr (Or.inr (Or.inl h))
  · exact Or.inr (Or.inr (Or.inr (Or.inr (Or.inr (Or.inl (by omega))))))
  · exact Or.inr (Or.inr (Or.inr (Or.inr (Or.inr (Or.inl h)))))

set_option maxRecDepth 1000000 in
/-- C4, as stated, fails: a 54-byte packet whose TCP header announces 60 bytes (`doff` 15)
ends before `tcp + doff*4`, and with the matched address, TCP and port 80 it is blocked. -/
theorem truncated_in_tcp_options_is_blocked :
    truncated_in_headers (packet_of (frame_with_doff 0x54 0x92 0x16 0xFE 80 15 []) 0) ∧
    (classify .little (packet_of (frame_with_doff 0x54 0x92 0x16 0xFE 80 15 []) 0)
      no_counts).val.1 = Verdict.Block ∧
    (xdp_metadata_blocker .little (packet_of (frame_with_doff 0x54 0x92 0x16 0xFE 80 15 []) 0)
      no_counts).val.1 = XDP_DROP := by
  decide

/-- C4, amended.  A packet that ends before the end of its Ethernet header (14 bytes), of its
IP header (14 + 20 bytes, or 14 + ihl*4), or of the 20 bytes of `struct tcphdr` at the TCP
header start is passed and nothing is counted, whatever the bytes that are present show. -/
theorem truncated_in_fixed_headers_is_passed (bo : ByteOrder) (ctx : PacketView) (maps : Maps)
    (h : truncated_in_fixed_headers ctx) :
    (classify bo ctx maps).val = (Verdict.Pass, maps) ∧
    (xdp_metadata_blocker bo ctx maps).val = (XDP_PASS, maps) := by
  have hc := classify_of_stops_early bo ctx maps (stops_early_of_truncated bo ctx h)
  refine ⟨hc, ?_⟩
  rw [xdp_metadata_blocker_eq_classify, hc]
  rfl

set_option maxRecDepth 1000000 in
/-- A frame cut after 50 bytes still shows IPv4, the matched address, TCP and port 80, and is
passed. -/
theorem truncated_in_fixed_headers_is_passed_witness :
    truncated_in_fixed_headers (packet_of ((frame_to_constant 80 get_request).take 50) 0) ∧
    (eth_h_proto .little (packet_of ((frame_to_constant 80 get_request).take 50) 0) 0).val =
      bpf_htons .little ETH_P_IP ∧
    (is_metadata_destination .little
      (packet_of ((frame_to_constant 80 get_request).take 50) 0) 14).val = true ∧
    (is_tcp (packet_of ((frame_to_constant 80 get_request).take 50) 0) 14).val = true ∧
    (is_metadata_port .little
      (packet_of ((frame_to_constant 80 get_request).take 50) 0) 34).val = true ∧
    ((classify .little (packet_of ((frame_to_constant 80 get_request).take 50) 0)
        no_counts).val = (Verdict.Pass, no_counts) ∧
      (xdp_metadata_blocker .little (packet_of ((frame_to_constant 80 get_request).take 50) 0)
        no_counts).val = (XDP_PASS, no_counts)) :=
  ⟨by decide, by decide, by decide, by decide, by decide,
    truncated_in_fixed_headers_is_passed .little
      (packet_of ((frame_to_constant 80 get_request).take 50) 0) no_counts (by decide)⟩

theorem Traced.reads_ite {α : Type} (c : Prop) [Decidable c] (x y : Traced α) :
    (if c then x else y).reads = if c then x.reads else y.reads := by
  split <;> rfl

/-- A match puts a NUL right after the 17 bytes of the path. -/
theorem nul_after_path_of_match (ctx : PacketView) (tcp s : Nat)
    (hs : first_space ctx (payload_start ctx tcp) s)
    (h : (is_token_request ctx tcp).val = true) : byte ctx (s + 18) = 0 := by
  obtain ⟨_, _, s2, hs2, _, hb⟩ := (is_token_request_iff ctx tcp).1 h
  have hss : s2 = s := first_space_unique ctx _ s2 s hs2 hs
  subst hss
  have := byte_of_bytes_at ctx (s2 + 1) 18 TOKEN_PATH hb 17 (by decide)
  rw [show s2 + 1 + 17 = s2 + 18 by omega] at this
  rw [this]
  decide

/-- When the bytes after the first space of the payload are `/latest/api/token` followed by
one more character (any byte but NUL), `is_token_request` reports no match, and a packet that
passed the header checks of the program is blocked and dropped. -/
theorem longer_path_is_blocked (ctx : PacketView) (tcp s : Nat)
    (hs : first_space ctx (payload_start ctx tcp) s)
    (_hpath : bytes_at ctx (s + 1) 17 = ascii "/latest/api/token")
    (hc : byte ctx (s + 18) ≠ 0) :
    (is_token_request ctx tcp).val = false ∧
    ∀ (bo : ByteOrder) (maps : Maps), ¬ stops_early bo ctx → tcp = tcp_start ctx →
      (classify bo ctx maps).val.1 = Verdict.Block ∧
      (xdp_metadata_blocker bo ctx maps).val.1 = XDP_DROP := by
  have hf : (is_token_request ctx tcp).val = false := by
    cases h : (is_token_request ctx tcp).val with
    | false => rfl
    | true => exact absurd (nul_after_path_of_match ctx tcp s hs h) hc
  refine ⟨hf, fun bo maps hn ht => ?_⟩
  subst ht
  have hcl := classify_of_not_stops_early bo ctx maps hn
  rw [hf] at hcl
  rw [xdp_metadata_blocker_eq_classify, hcl]
  exact ⟨rfl, rfl⟩

set_option maxRecDepth 1000000 in
/-- The request `PUT /latest/api/tokens HTTP/1.1` sent to the matched address: the first
space is at offset 57, the path is followed by `s`, and the packet is dropped. -/
theorem longer_path_is_blocked_witness :
    first_space (packet_of (frame_to_constant 80 tokens_request) 0)
      (payload_start (packet_of (frame_to_constant 80 tokens_request) 0) 34) 57 ∧
    bytes_at (packet_of (frame_to_constant 80 tokens_request) 0) 58 18 =
      ascii "/latest/api/tokens" ∧
    ¬ stops_early .little (packet_of (frame_to_constant 80 tokens_request) 0) ∧
    (is_token_request (packet_of (frame_to_constant 80 tokens_request) 0) 34).val = false ∧
    (classify .little (packet_of (frame_to_constant 80 tokens_request) 0)
      no_counts).val.1 = Verdict.Block ∧
    (xdp_metadata_blocker .little (packet_of (frame_to_constant 80 tokens_request) 0)
      no_counts).val.1 = XDP_DROP :=
  have hs : first_space (packet_of (frame_to_constant 80 tokens_request) 0)
      (payload_start (packet_of (frame_to_constant 80 tokens_request) 0) 34) 57 :=
    ⟨by decide, by decide, fun i h1 h2 => by
      have h54 : payload_start (packet_of (frame_to_constant 80 tokens_request) 0) 34 = 54 := by
        decide
      rw [h54] at h1
      obtain rfl | rfl | rfl : i = 54 ∨ i = 55 ∨ i = 56 := by omega
      all_goals decide⟩
  have hn : ¬ stops_early .little (packet_of (frame_to_constant 80 tokens_request) 0) := by
    decide
  have h := longer_path_is_blocked (packet_of (frame_to_constant 80 tokens_request) 0) 34 57
    hs (by decide) (by decide)
  ⟨hs, by decide, hn, h.1, h.2 .little no_counts hn (by decide)⟩

set_option maxRecDepth 1000000 in
/-- C6 (code bug).  The packet to `169.254.169.254` port 80 carrying
`PUT /latest/api/tokens HTTP/1.1` with its headers: `is_token_request` reports no match, as
it does for every payload of that form, but the packet is passed on either byte order, not
blocked, and nothing is counted, because `METADATA_IP` is not that address. -/
theorem longer_path_to_metadata_address_is_passed :
    bytes_at (packet_of (frame 169 254 169 254 80 tokens_request) 0) 30 4 =
      [169, 254, 169, 254] ∧
    bytes_at (packet_of (frame 169 254 169 254 80 tokens_request) 0) 54 31 =
      ascii "PUT /latest/api/tokens HTTP/1.1" ∧
    (is_token_request (packet_of (frame 169 254 169 254 80 tokens_request) 0) 34).val =
      false ∧
    (classify .little (packet_of (frame 169 254 169 254 80 tokens_request) 0)
      no_counts).val = (Verdict.Pass, no_counts) ∧
    (classify .big (packet_of (frame 169 254 169 254 80 tokens_request) 0)
      no_counts).val = (Verdict.Pass, no_counts) ∧
    (xdp_metadata_blocker .little (packet_of (frame 169 254 169 254 80 tokens_request) 0)
      no_counts).val = (XDP_PASS, no_counts) ∧
    (xdp_metadata_blocker .big (packet_of (frame 169 254 169 254 80 tokens_request) 0)
      no_counts).val = (XDP_PASS, no_counts) := by
  decide

/-- A match implies that the first 3 payload bytes are `PUT`, that the payload has a space
before `data_end`, and that the 17 bytes of memory right after the first space are
`/latest/api/token`, compared byte for byte; whether those 17 bytes lie before `data_end` is
not checked. -/
theorem match_requires_put_space_path (ctx : PacketView) (tcp : Nat)
    (h : (is_token_request ctx tcp).val = true) :
    bytes_at ctx (payload_start ctx tcp) 3 = ascii "PUT" ∧
    ∃ s, s < ctx.data_end ∧ first_space ctx (payload_start ctx tcp) s ∧
      bytes_at ctx (s + 1) 17 = ascii "/latest/api/token" := by
  obtain ⟨_, hput, s, hs, hlt, hb⟩ := (is_token_request_iff ctx tcp).1 h
  refine ⟨hput, s, hlt, hs, ?_⟩
  rw [bytes_at_succ_right, TOKEN_PATH_eq] at hb
  exact (List.append_inj hb (by rw [bytes_at_length, ascii_path_length])).1

set_option maxRecDepth 1000000 in
/-- The payload `PUT /latest/api/token`, a NUL and 178 more bytes is matched, and starts with
`PUT`. -/
theorem match_requires_put_space_path_witness :
    (is_token_request (packet_of (frame_to_constant 80 token_request_nul_padded) 0) 34).val =
      true ∧
    bytes_at (packet_of (frame_to_constant 80 token_request_nul_padded) 0)
      (payload_start (packet_of (frame_to_constant 80 token_request_nul_padded) 0) 34) 3 =
      ascii "PUT" :=
  ⟨by decide,
    (match_requires_put_space_path
      (packet_of (frame_to_constant 80 token_request_nul_padded) 0) 34 (by decide)).1⟩

set_option maxRecDepth 1000000 in
/-- C7 (code bug).  The captured payload is `PUT`, 196 bytes `A` and a space in its last
byte, offset 253 with `data_end` 254: nothing of the payload follows its first space, and
the request is matched all the same, on the 18 bytes that lie in memory after `data_end`. -/
theorem match_without_path_in_payload :
    (space_at_end_packet TOKEN_PATH).data_end = 254 ∧
    payload_start (space_at_end_packet TOKEN_PATH) 34 = 54 ∧
    bytes_at (space_at_end_packet TOKEN_PATH) 54 200 = space_at_end ∧
    first_space (space_at_end_packet TOKEN_PATH) 54 253 ∧
    ¬ (253 + 1 + 17 ≤ (space_at_end_packet TOKEN_PATH).data_end) ∧
    (is_token_request (space_at_end_packet TOKEN_PATH) 34).val = true :=
  ⟨by decide, by decide, by decide, ⟨by decide, by decide, by decide⟩, by decide, by decide⟩

set_option maxRecDepth 1000000 in
/-- A lower-case method, a differently cased path and two spaces between method and path are
not matched, each in a 200-byte payload that otherwise is the matched one. -/
theorem variants_are_not_matched :
    (is_token_request (packet_of (frame_to_constant 80
      (ascii "put /latest/api/token" ++ [0] ++ List.replicate 178 0x41)) 0) 34).val = false ∧
    (is_token_request (packet_of (frame_to_constant 80
      (ascii "PUT /latest/API/token" ++ [0] ++ List.replicate 178 0x41)) 0) 34).val = false ∧
    (is_token_request (packet_of (frame_to_constant 80
      (ascii "PUT  /latest/api/token" ++ [0] ++ List.replicate 177 0x41)) 0) 34).val = false := by
  decide

set_option maxRecDepth 1000000 in
/-- C8, as stated, fails: the 22 captured payload bytes `PUT /latest/api/token` and NUL hold
the method, the space and the whole compared range, and are not matched, while the same
bytes followed by 178 more are. -/
theorem short_payload_is_decided_differently :
    (packet_of (frame_to_constant 80 token_request_nul) 0).data_end <
      payload_start (packet_of (frame_to_constant 80 token_request_nul) 0) 34 + 200 ∧
    bytes_at (packet_of (frame_to_constant 80 token_request_nul) 0) 54 22 =
      token_request_nul ∧
    bytes_at (packet_of (frame_to_constant 80 token_request_nul_padded) 0) 54 22 =
      token_request_nul ∧
    (is_token_request (packet_of (frame_to_constant 80 token_request_nul) 0) 34).val = false ∧
    (is_token_request (packet_of (frame_to_constant 80 token_request_nul_padded) 0) 34).val =
      true := by
  decide

/-- C8, amended.  When fewer than 200 payload bytes are captured (`payload + 200 > data_end`)
the matcher reports no match without looking at the payload: the only byte it loads is the
one holding `tcp->doff`. -/
theorem short_payload_is_not_matched (ctx : PacketView) (tcp : Nat)
    (h : payload_start ctx tcp + 200 > ctx.data_end) :
    (is_token_request ctx tcp).val = false ∧ (is_token_request ctx tcp).reads = [tcp + 12] := by
  refine ⟨is_token_request_short ctx tcp h, ?_⟩
  unfold payload_start at h
  unfold is_token_request
  simp only [Traced.reads_bind, Traced.reads_ite, Traced.val_bind, h, if_true, Traced.reads_pure,
    List.append_nil]
  rfl

set_option maxRecDepth 1000000 in
/-- The 22-byte payload `PUT /latest/api/token` and NUL is not matched. -/
theorem short_payload_is_not_matched_witness :
    payload_start (packet_of (frame_to_constant 80 token_request_nul) 0) 34 + 200 >
      (packet_of (frame_to_constant 80 token_request_nul) 0).data_end ∧
    ((is_token_request (packet_of (frame_to_constant 80 token_request_nul) 0) 34).val = false ∧
      (is_token_request (packet_of (frame_to_constant 80 token_request_nul) 0) 34).reads =
        [34 + 12]) :=
  ⟨by decide,
    short_payload_is_not_matched (packet_of (frame_to_constant 80 token_request_nul) 0) 34
      (by decide)⟩

/-- C9.  A packet that passed the header checks and whose captured payload is shorter than
the method, the space and the path together (3 + 1 + 17 bytes) is not matched, is blocked
and dropped, and is counted as a blocked attempt. -/
theorem incomplete_request_is_blocked (bo : ByteOrder) (ctx : PacketView) (maps : Maps)
    (h : ¬ stops_early bo ctx)
    (hshort : ctx.data_end < payload_start ctx (tcp_start ctx) + (3 + 1 + 17)) :
    (is_token_request ctx (tcp_start ctx)).val = false ∧
    (classify bo ctx maps).val =
      (Verdict.Block, log_blocked_attempt maps (ip_saddr bo ctx 14).val) ∧
    (xdp_metadata_blocker bo ctx maps).val =
      (XDP_DROP, log_blocked_attempt maps (ip_saddr bo ctx 14).val) := by
  have hf := is_token_request_short ctx (tcp_start ctx) (by omega)
  have hcl := classify_of_not_stops_early bo ctx maps h
  rw [hf] at hcl
  refine ⟨hf, hcl, ?_⟩
  rw [xdp_metadata_blocker_eq_classify, hcl]
  rfl

set_option maxRecDepth 1000000 in
/-- The 5-byte payload `PUT /` sent to the matched address: blocked, dropped, and the count
of `10.0.0.5` becomes 1. -/
theorem incomplete_request_is_blocked_witness :
    ¬ stops_early .little (packet_of (frame_to_constant 80 (ascii "PUT /")) 0) ∧
    (is_token_request (packet_of (frame_to_constant 80 (ascii "PUT /")) 0) 34).val = false ∧
    (classify .little (packet_of (frame_to_constant 80 (ascii "PUT /")) 0) no_counts).val =
      (Verdict.Block, ⟨[(src_10_0_0_5, 1)], []⟩) ∧
    (xdp_metadata_blocker .little (packet_of (frame_to_constant 80 (ascii "PUT /")) 0)
      no_counts).val = (XDP_DROP, ⟨[(src_10_0_0_5, 1)], []⟩) :=
  have hn : ¬ stops_early .little (packet_of (frame_to_constant 80 (ascii "PUT /")) 0) := by
    decide
  have h := incomplete_request_is_blocked .little
    (packet_of (frame_to_constant 80 (ascii "PUT /")) 0) no_counts hn (by decide)
  ⟨hn, h.1, h.2⟩

set_option maxRecDepth 1000000 in
/-- C10 (code bug).  The 254-byte packet whose 200-byte payload has its only space in the
last byte: the path comparison loads offset 254, which is `data_end`; with the path in the
memory that follows it loads offsets 254 to 271 and the packet is allowed, while with zeros
there the same captured bytes are blocked. -/
theorem path_comparison_reads_past_data_end :
    (space_at_end_packet []).data_end = 254 ∧
    (space_at_end_packet TOKEN_PATH).data_end = 254 ∧
    bytes_at (space_at_end_packet []) 0 254 = bytes_at (space_at_end_packet TOKEN_PATH) 0 254 ∧
    (xdp_metadata_blocker .little (space_at_end_packet []) no_counts).reads.filter
      (fun i => decide (254 ≤ i)) = [254] ∧
    (xdp_metadata_blocker .little (space_at_end_packet TOKEN_PATH) no_counts).reads.filter
      (fun i => decide (254 ≤ i)) = List.range' 254 18 ∧
    (classify .little (space_at_end_packet []) no_counts).val.1 = Verdict.Block ∧
    (classify .little (space_at_end_packet TOKEN_PATH) no_counts).val.1 = Verdict.Allow := by
  decide

/-! ## The three entry points -/

theorem tc_metadata_blocker_val (bo : ByteOrder) (ctx : PacketView) (maps : Maps) :
    (tc_metadata_blocker bo ctx maps).val =
      if ctx.data_end < 14 then (TC_ACT_OK, maps)
      else if (eth_h_proto bo ctx 0).val ≠ bpf_htons bo ETH_P_IP then (TC_ACT_OK, maps)
      else if ctx.data_end < 14 + 20 then (TC_ACT_OK, maps)
      else if (is_metadata_destination bo ctx 14).val = false then (TC_ACT_OK, maps)
      else if (is_tcp ctx 14).val = false then (TC_ACT_OK, maps)
      else if ctx.data_end < 14 + (ip_ihl ctx 14).val * 4 + 20 then (TC_ACT_OK, maps)
      else if (is_metadata_port bo ctx (tcp_start ctx)).val = false then (TC_ACT_OK, maps)
      else if (is_token_request ctx (tcp_start ctx)).val = true then
        (TC_ACT_OK, log_token_request maps (ip_saddr bo ctx 14).val)
      else (TC_ACT_SHOT, log_blocked_attempt maps (ip_saddr bo ctx 14).val) := by
  unfold tc_metadata_blocker tcp_start
  simp only [sizeof_ethhdr, sizeof_iphdr, sizeof_tcphdr, Nat.zero_add, Traced.val_ite,
    Traced.val_bind, Traced.val_pure, gt_iff_lt, Bool.not_eq_true']

theorem socket_metadata_filter_val (bo : ByteOrder) (ctx : PacketView) (maps : Maps) :
    (socket_metadata_filter bo ctx maps).val =
      if ctx.data_end < 14 then (0, maps)
      else if (eth_h_proto bo ctx 0).val ≠ bpf_htons bo ETH_P_IP then (0, maps)
      else if ctx.data_end < 14 + 20 then (0, maps)
      else if (is_metadata_destination bo ctx 14).val = false then (0, maps)
      else if (is_tcp ctx 14).val = false then (0, maps)
      else if ctx.data_end < 14 + (ip_ihl ctx 14).val * 4 + 20 then (0, maps)
      else if (is_metadata_port bo ctx (tcp_start ctx)).val = false then (0, maps)
      else if (is_token_request ctx (tcp_start ctx)).val = true then
        (0, log_token_request maps (ip_saddr bo ctx 14).val)
      else (-1, log_blocked_attempt maps (ip_saddr bo ctx 14).val) := by
  unfold socket_metadata_filter tcp_start
  simp only [sizeof_ethhdr, sizeof_iphdr, sizeof_tcphdr, Nat.zero_add, Traced.val_ite,
    Traced.val_bind, Traced.val_pure, gt_iff_lt, Bool.not_eq_true']

theorem tc_metadata_blocker_eq_classify (bo : ByteOrder) (ctx : PacketView) (maps : Maps) :
    (tc_metadata_blocker bo ctx maps).val =
      (tc_action (classify bo ctx maps).val.1, (classify bo ctx maps).val.2) := by
  rw [tc_metadata_blocker_val, classify_val]
  repeat' split
  all_goals rfl

theorem socket_metadata_filter_eq_classify (bo : ByteOrder) (ctx : PacketView) (maps : Maps) :
    (socket_metadata_filter bo ctx maps).val =
      (socket_action (classify bo ctx maps).val.1, (classify bo ctx maps).val.2) := by
  rw [socket_metadata_filter_val, classify_val]
  repeat' split
  all_goals rfl

/-- The verdict does not look at the maps. -/
theorem classify_verdict_eq (bo : ByteOrder) (ctx : PacketView) (m1 m2 : Maps) :
    (classify bo ctx m1).val.1 = (classify bo ctx m2).val.1 := by
  rw [classify_val, classify_val]
  repeat' split
  all_goals rfl

/-- C11.  For every packet and every two states of the two maps, whatever they hold, the
verdict is the same, and so is the code each of the three entry points returns. -/
theorem verdict_independent_of_maps (bo : ByteOrder) (ctx : PacketView) (m1 m2 : Maps) :
    (classify bo ctx m1).val.1 = (classify bo ctx m2).val.1 ∧
    (xdp_metadata_blocker bo ctx m1).val.1 = (xdp_metadata_blocker bo ctx m2).val.1 ∧
    (tc_metadata_blocker bo ctx m1).val.1 = (tc_metadata_blocker bo ctx m2).val.1 ∧
    (socket_metadata_filter bo ctx m1).val.1 = (socket_metadata_filter bo ctx m2).val.1 := by
  have h := classify_verdict_eq bo ctx m1 m2
  refine ⟨h, ?_, ?_, ?_⟩
  · rw [xdp_metadata_blocker_eq_classify, xdp_metadata_blocker_eq_classify, h]
  · rw [tc_metadata_blocker_eq_classify, tc_metadata_blocker_eq_classify, h]
  · rw [socket_metadata_filter_eq_classify, socket_metadata_filter_eq_classify, h]

/-- C15.  The three entry points return, for every packet, the action code of one and the
same verdict and leave the maps in one and the same state; `Pass` and `Allow` become the
continue code of the entry point (`XDP_PASS`, `TC_ACT_OK`, 0) and `Block` its discard code
(`XDP_DROP`, `TC_ACT_SHOT`, -1). -/
theorem entry_points_agree (bo : ByteOrder) (ctx : PacketView) (maps : Maps) :
    (xdp_metadata_blocker bo ctx maps).val =
      (xdp_action (classify bo ctx maps).val.1, (classify bo ctx maps).val.2) ∧
    (tc_metadata_blocker bo ctx maps).val =
      (tc_action (classify bo ctx maps).val.1, (classify bo ctx maps).val.2) ∧
    (socket_metadata_filter bo ctx maps).val =
      (socket_action (classify bo ctx maps).val.1, (classify bo ctx maps).val.2) ∧
    (xdp_metadata_blocker bo ctx maps).reads = (classify bo ctx maps).reads ∧
    (tc_metadata_blocker bo ctx maps).reads = (classify bo ctx maps).reads ∧
    (socket_metadata_filter bo ctx maps).reads = (classify bo ctx maps).reads ∧
    (xdp_action .Pass, xdp_action .Allow, xdp_action .Block) = (XDP_PASS, XDP_PASS, XDP_DROP) ∧
    (tc_action .Pass, tc_action .Allow, tc_action .Block) = (TC_ACT_OK, TC_ACT_OK, TC_ACT_SHOT) ∧
    (socket_action .Pass, socket_action .Allow, socket_action .Block) = (0, 0, -1) := by
  refine ⟨xdp_metadata_blocker_eq_classify bo ctx maps,
    tc_metadata_blocker_eq_classify bo ctx maps,
    socket_metadata_filter_eq_classify bo ctx maps, ?_, ?_, ?_, rfl, rfl, rfl⟩
  · unfold xdp_metadata_blocker classify
    simp only [Traced.reads_bind, Traced.reads_ite, Traced.val_bind, Traced.reads_pure]
  · unfold tc_metadata_blocker classify
    simp only [Traced.reads_bind, Traced.reads_ite, Traced.val_bind, Traced.reads_pure]
  · unfold socket_metadata_filter classify
    simp only [Traced.reads_bind, Traced.reads_ite, Traced.val_bind, Traced.reads_pure]

/-! ## The counter maps -/

theorem lookup_map_store_self (m : HashMap) (key value : Nat) {c : Nat}
    (h : bpf_map_lookup_elem m key = some c) :
    bpf_map_lookup_elem (map_store m key value) key = some value := by
  induction m with
  | nil => simp [bpf_map_lookup_elem] at h
  | cons e rest ih =>
    obtain ⟨k, v⟩ := e
    by_cases hk : k = key
    · simp [map_store, bpf_map_lookup_elem, hk]
    · simp only [bpf_map_lookup_elem, hk, if_false] at h
      simp [map_store, bpf_map_lookup_elem, hk, ih h]

theorem lookup_map_store_other (m : HashMap) (key value k2 : Nat) (h : k2 ≠ key) :
    bpf_map_lookup_elem (map_store m key value) k2 = bpf_map_lookup_elem m k2 := by
  induction m with
  | nil => rfl
  | cons e rest ih =>
    obtain ⟨k, v⟩ := e
    by_cases hk : k = key
    · subst hk
      simp [map_store, bpf_map_lookup_elem, Ne.symm h]
    · simp [map_store, bpf_map_lookup_elem, hk, ih]

theorem length_map_store (m : HashMap) (key value : Nat) :
    (map_store m key value).length = m.length := by
  induction m with
  | nil => rfl
  | cons e rest ih =>
    obtain ⟨k, v⟩ := e
    by_cases hk : k = key <;> simp [map_store, hk, ih]

theorem lookup_cons_other (m : HashMap) (key value k2 : Nat) (h : k2 ≠ key) :
    bpf_map_lookup_elem ((key, value) :: m) k2 = bpf_map_lookup_elem m k2 := by
  simp [bpf_map_lookup_elem, Ne.symm h]

theorem log_blocked_attempt_present (maps : Maps) (key c : Nat)
    (h : bpf_map_lookup_elem maps.blocked_attempts key = some c) :
    log_blocked_attempt maps key =
      { maps with blocked_attempts := map_store maps.blocked_attempts key ((c + 1) % 2 ^ 64) } := by
  unfold log_blocked_attempt
  rw [h]

theorem log_blocked_attempt_absent (maps : Maps) (key : Nat)
    (h : bpf_map_lookup_elem maps.blocked_attempts key = none) :
    log_blocked_attempt maps key =
      { maps with
        blocked_attempts :=
          if maps.blocked_attempts.length < blocked_attempts_max_entries then
            (key, 1) :: maps.blocked_attempts
          else maps.blocked_attempts } := by
  unfold log_blocked_attempt bpf_map_update_elem
  rw [h]

theorem log_token_request_present (maps : Maps) (key c : Nat)
    (h : bpf_map_lookup_elem maps.token_requests key = some c) :
    log_token_request maps key =
      { maps with token_requests := map_store maps.token_requests key ((c + 1) % 2 ^ 64) } := by
  unfold log_token_request
  rw [h]

theorem log_token_request_absent (maps : Maps) (key : Nat)
    (h : bpf_map_lookup_elem maps.token_requests key = none) :
    log_token_request maps key =
      { maps with
        token_requests :=
          if maps.token_requests.length < token_requests_max_entries then
            (key, 1) :: maps.token_requests
          else maps.token_requests } := by
  unfold log_token_request bpf_map_update_elem
  rw [h]

theorem log_blocked_attempt_token_requests (maps : Maps) (key : Nat) :
    (log_blocked_attempt maps key).token_requests = maps.token_requests := by
  unfold log_blocked_attempt
  split <;> rfl

theorem log_token_request_blocked_attempts (maps : Maps) (key : Nat) :
    (log_token_request maps key).blocked_attempts = maps.blocked_attempts := by
  unfold log_token_request
  split <;> rfl

theorem log_blocked_attempt_other (maps : Maps) (key k2 : Nat) (h : k2 ≠ key) :
    bpf_map_lookup_elem (log_blocked_attempt maps key).blocked_attempts k2 =
      bpf_map_lookup_elem maps.blocked_attempts k2 := by
  cases hl : bpf_map_lookup_elem maps.blocked_attempts key with
  | some c =>
    rw [log_blocked_attempt_present maps key c hl]
    exact lookup_map_store_other _ _ _ _ h
  | none =>
    rw [log_blocked_attempt_absent maps key hl]
    show bpf_map_lookup_elem (if _ then _ else _) k2 = _
    split
    · exact lookup_cons_other _ _ _ _ h
    · rfl

theorem log_token_request_other (maps : Maps) (key k2 : Nat) (h : k2 ≠ key) :
    bpf_map_lookup_elem (log_token_request maps key).token_requests k2 =
      bpf_map_lookup_elem maps.token_requests k2 := by
  cases hl : bpf_map_lookup_elem maps.token_requests key with
  | some c =>
    rw [log_token_request_present maps key c hl]
    exact lookup_map_store_other _ _ _ _ h
  | none =>
    rw [log_token_request_absent maps key hl]
    show bpf_map_lookup_elem (if _ then _ else _) k2 = _
    split
    · exact lookup_cons_other _ _ _ _ h
    · rfl

/-- After `n + 1` records of an address that was absent from a blocked-attempts map with
room, the address is present and its count is `n + 1` as a 64-bit value. -/
theorem iterate_log_blocked_attempt (maps : Maps) (addr n : Nat)
    (hb : bpf_map_lookup_elem maps.blocked_attempts addr = none)
    (hr : maps.blocked_attempts.length < blocked_attempts_max_entries) :
    bpf_map_lookup_elem
      (Nat.iterate (fun m => log_blocked_attempt m addr) (n + 1) maps).blocked_attempts addr =
      some ((n + 1) % 2 ^ 64) := by
  induction n with
  | zero =>
    show bpf_map_lookup_elem (log_blocked_attempt maps addr).blocked_attempts addr = some _
    rw [log_blocked_attempt_absent maps addr hb]
    simp [hr, bpf_map_lookup_elem]
  | succ n ih =>
    rw [Function.iterate_succ_apply']
    rw [log_blocked_attempt_present _ addr _ ih]
    show bpf_map_lookup_elem (map_store _ addr _) addr = _
    rw [lookup_map_store_self _ addr _ ih]
    congr 1
    omega

/-- After `n + 1` records of an address that was absent from a token-requests map with room,
the address is present and its count is `n + 1` as a 64-bit value. -/
theorem iterate_log_token_request (maps : Maps) (addr n : Nat)
    (hb : bpf_map_lookup_elem maps.token_requests addr = none)
    (hr : maps.token_requests.length < token_requests_max_entries) :
    bpf_map_lookup_elem
      (Nat.iterate (fun m => log_token_request m addr) (n + 1) maps).token_requests addr =
      some ((n + 1) % 2 ^ 64) := by
  induction n with
  | zero =>
    show bpf_map_lookup_elem (log_token_request maps addr).token_requests addr = some _
    rw [log_token_request_absent maps addr hb]
    simp [hr, bpf_map_lookup_elem]
  | succ n ih =>
    rw [Function.iterate_succ_apply']
    rw [log_token_request_present _ addr _ ih]
    show bpf_map_lookup_elem (map_store _ addr _) addr = _
    rw [lookup_map_store_self _ addr _ ih]
    congr 1
    omega

/-- C12, as stated, fails: the count is a `__u64`, and after `2^64` calls of
`log_blocked_attempt` for `10.0.0.5` on the empty map the stored count is 0, not `2^64`. -/
theorem records_wrap_after_two_pow_64 :
    bpf_map_lookup_elem
      (Nat.iterate (fun m => log_blocked_attempt m src_10_0_0_5) (2 ^ 64)
        no_counts).blocked_attempts src_10_0_0_5 = some 0 ∧
    bpf_map_lookup_elem
      (Nat.iterate (fun m => log_blocked_attempt m src_10_0_0_5) (2 ^ 64)
        no_counts).blocked_attempts src_10_0_0_5 ≠ some (2 ^ 64) := by
  have h := iterate_log_blocked_attempt no_counts src_10_0_0_5 (2 ^ 64 - 1) rfl
    (by decide)
  have e : 2 ^ 64 - 1 + 1 = 2 ^ 64 := by norm_num
  rw [e] at h
  rw [h]
  constructor
  · norm_num
  · norm_num

/-- C12, amended.  For `1 <= N < 2^64`, `N` calls of `log_blocked_attempt` for an address
that the blocked-attempts map does not hold, on a blocked-attempts map with spare capacity,
leave the count of the address at exactly `N`, whatever the token-requests map holds; the
same for `log_token_request` and the token-requests map, whatever the blocked-attempts map
holds. -/
theorem repeated_records_count (maps : Maps) (addr N : Nat) (hN : 1 ≤ N) (h64 : N < 2 ^ 64) :
    (bpf_map_lookup_elem maps.blocked_attempts addr = none →
      maps.blocked_attempts.length < blocked_attempts_max_entries →
      bpf_map_lookup_elem
        (Nat.iterate (fun m => log_blocked_attempt m addr) N maps).blocked_attempts addr =
        some N) ∧
    (bpf_map_lookup_elem maps.token_requests addr = none →
      maps.token_requests.length < token_requests_max_entries →
      bpf_map_lookup_elem
        (Nat.iterate (fun m => log_token_request m addr) N maps).token_requests addr =
        some N) := by
  obtain ⟨n, rfl⟩ : ∃ n, N = n + 1 := ⟨N - 1, by omega⟩
  refine ⟨fun hb hr => ?_, fun hb hr => ?_⟩
  · rw [iterate_log_blocked_attempt maps addr n hb hr, Nat.mod_eq_of_lt h64]
  · rw [iterate_log_token_request maps addr n hb hr, Nat.mod_eq_of_lt h64]

set_option maxRecDepth 1000000 in
/-- Three records of `10.0.0.5`: the blocked count is 3 while the token-requests map is
full, and the token count is 3 while the blocked-attempts map is full. -/
theorem repeated_records_count_witness :
    bpf_map_lookup_elem
      (Nat.iterate (fun m => log_blocked_attempt m src_10_0_0_5) 3
        token_full_maps).blocked_attempts src_10_0_0_5 = some 3 ∧
    bpf_map_lookup_elem
      (Nat.iterate (fun m => log_token_request m src_10_0_0_5) 3
        blocked_full_maps).token_requests src_10_0_0_5 = some 3 :=
  ⟨(repeated_records_count token_full_maps src_10_0_0_5 3 (by decide) (by decide)).1
      (by decide) (by decide),
    (repeated_records_count blocked_full_maps src_10_0_0_5 3 (by decide) (by decide)).2
      (by decide) (by decide)⟩

/-- C13.  With 1000 entries in the blocked-attempts map, whatever the token-requests map
holds, a `log_blocked_attempt` for an address the map does not hold leaves both maps as they
were, and one for an address it holds with count `c` stores `c + 1` (as a 64-bit value) for
that address, keeps every other entry and the number of entries, and leaves the other map
alone.  The same for `log_token_request` with 100 entries in the token-requests map,
whatever the blocked-attempts map holds. -/
theorem record_on_full_map (maps : Maps) (addr : Nat) :
    (maps.blocked_attempts.length = blocked_attempts_max_entries →
      (bpf_map_lookup_elem maps.blocked_attempts addr = none →
        log_blocked_attempt maps addr = maps) ∧
      (∀ c, bpf_map_lookup_elem maps.blocked_attempts addr = some c →
        bpf_map_lookup_elem (log_blocked_attempt maps addr).blocked_attempts addr =
          some ((c + 1) % 2 ^ 64) ∧
        (∀ k, k ≠ addr →
          bpf_map_lookup_elem (log_blocked_attempt maps addr).blocked_attempts k =
            bpf_map_lookup_elem maps.blocked_attempts k) ∧
        (log_blocked_attempt maps addr).blocked_attempts.length =
          maps.blocked_attempts.length ∧
        (log_blocked_attempt maps addr).token_requests = maps.token_requests)) ∧
    (maps.token_requests.length = token_requests_max_entries →
      (bpf_map_lookup_elem maps.token_requests addr = none →
        log_token_request maps addr = maps) ∧
      (∀ c, bpf_map_lookup_elem maps.token_requests addr = some c →
        bpf_map_lookup_elem (log_token_request maps addr).token_requests addr =
          some ((c + 1) % 2 ^ 64) ∧
        (∀ k, k ≠ addr →
          bpf_map_lookup_elem (log_token_request maps addr).token_requests k =
            bpf_map_lookup_elem maps.token_requests k) ∧
        (log_token_request maps addr).token_requests.length = maps.token_requests.length ∧
        (log_token_request maps addr).blocked_attempts = maps.blocked_attempts)) := by
  refine ⟨fun hb => ⟨fun h => ?_, fun c h => ⟨?_,
    fun k hk => log_blocked_attempt_other maps addr k hk, ?_,
    log_blocked_attempt_token_requests maps addr⟩⟩,
    fun ht => ⟨fun h => ?_, fun c h => ⟨?_,
    fun k hk => log_token_request_other maps addr k hk, ?_,
    log_token_request_blocked_attempts maps addr⟩⟩⟩
  · rw [log_blocked_attempt_absent maps addr h, if_neg (by omega)]
  · rw [log_blocked_attempt_present maps addr c h]
    exact lookup_map_store_self _ _ _ h
  · rw [log_blocked_attempt_present maps addr c h]
    exact length_map_store _ _ _
  · rw [log_token_request_absent maps addr h, if_neg (by omega)]
  · rw [log_token_request_present maps addr c h]
    exact lookup_map_store_self _ _ _ h
  · rw [log_token_request_present maps addr c h]
    exact length_map_store _ _ _

set_option maxRecDepth 1000000 in
/-- With only the blocked-attempts map full, a blocked record for the new address 5000
changes nothing and one for address 3, counted 7 times, makes its count 8; likewise for
token records with only the token-requests map full. -/
theorem record_on_full_map_witness :
    blocked_full_maps.blocked_attempts.length = 1000 ∧
    blocked_full_maps.token_requests.length = 0 ∧
    log_blocked_attempt blocked_full_maps 5000 = blocked_full_maps ∧
    bpf_map_lookup_elem (log_blocked_attempt blocked_full_maps 3).blocked_attempts 3 =
      some ((7 + 1) % 2 ^ 64) ∧
    token_full_maps.token_requests.length = 100 ∧
    token_full_maps.blocked_attempts.length = 0 ∧
    log_token_request token_full_maps 5000 = token_full_maps ∧
    bpf_map_lookup_elem (log_token_request token_full_maps 3).token_requests 3 =
      some ((7 + 1) % 2 ^ 64) :=
  have hb := (record_on_full_map blocked_full_maps 5000).1 (by decide)
  have hb3 := (record_on_full_map blocked_full_maps 3).1 (by decide)
  have ht := (record_on_full_map token_full_maps 5000).2 (by decide)
  have ht3 := (record_on_full_map token_full_maps 3).2 (by decide)
  ⟨by decide, by decide, hb.1 (by decide), (hb3.2 7 (by decide)).1, by decide, by decide,
    ht.1 (by decide), (ht3.2 7 (by decide)).1⟩

/-- C14.  A `Pass` leaves both maps as they were; a `Block` leaves the token-requests map as
it was and changes the blocked-attempts map at no key but the source address of the packet;
an `Allow` leaves the blocked-attempts map as it was and changes the token-requests map at
no key but the source address.  The maps an entry point leaves are these. -/
theorem maps_frame (bo : ByteOrder) (ctx : PacketView) (maps : Maps) :
    ((classify bo ctx maps).val.1 = Verdict.Pass → (classify bo ctx maps).val.2 = maps) ∧
    ((classify bo ctx maps).val.1 = Verdict.Block →
      (classify bo ctx maps).val.2.token_requests = maps.token_requests ∧
      ∀ k, k ≠ (ip_saddr bo ctx 14).val →
        bpf_map_lookup_elem (classify bo ctx maps).val.2.blocked_attempts k =
          bpf_map_lookup_elem maps.blocked_attempts k) ∧
    ((classify bo ctx maps).val.1 = Verdict.Allow →
      (classify bo ctx maps).val.2.blocked_attempts = maps.blocked_attempts ∧
      ∀ k, k ≠ (ip_saddr bo ctx 14).val →
        bpf_map_lookup_elem (classify bo ctx maps).val.2.token_requests k =
          bpf_map_lookup_elem maps.token_requests k) ∧
    (xdp_metadata_blocker bo ctx maps).val.2 = (classify bo ctx maps).val.2 ∧
    (tc_metadata_blocker bo ctx maps).val.2 = (classify bo ctx maps).val.2 ∧
    (socket_metadata_filter bo ctx maps).val.2 = (classify bo ctx maps).val.2 := by
  refine ⟨?_, ?_, ?_, by rw [xdp_metadata_blocker_eq_classify],
    by rw [tc_metadata_blocker_eq_classify], by rw [socket_metadata_filter_eq_classify]⟩
  all_goals
    by_cases h : stops_early bo ctx
    · rw [classify_of_stops_early bo ctx maps h]
      simp
    · rw [classify_of_not_stops_early bo ctx maps h]
      cases ht : (is_token_request ctx (tcp_start ctx)).val
      · simp [log_blocked_attempt_token_requests]
        try exact fun k hk => log_blocked_attempt_other maps _ k hk
      · simp [log_token_request_blocked_attempts]
        try exact fun k hk => log_token_request_other maps _ k hk

set_option maxRecDepth 1000000 in
/-- A packet to `10.0.0.1` port 80 is passed and neither map changes, here with both maps at
capacity. -/
theorem maps_frame_witness :
    (classify .little (packet_of (frame 10 0 0 1 80 get_request) 0) full_maps).val.1 =
      Verdict.Pass ∧
    (classify .little (packet_of (frame 10 0 0 1 80 get_request) 0) full_maps).val.2 =
      full_maps ∧
    (xdp_metadata_blocker .little (packet_of (frame 10 0 0 1 80 get_request) 0)
      full_maps).val.2 = (classify .little (packet_of (frame 10 0 0 1 80 get_request) 0)
      full_maps).val.2 :=
  have h := maps_frame .little (packet_of (frame 10 0 0 1 80 get_request) 0) full_maps
  have hp : (classify .little (packet_of (frame 10 0 0 1 80 get_request) 0) full_maps).val.1 =
      Verdict.Pass := by
    rw [classify_of_stops_early _ _ _ (by decide)]
  ⟨hp, h.1 hp, h.2.2.2.1⟩

/-! ## What the scan examines -/

theorem skip_to_space_step (ctx : PacketView) (fuel p : Nat) :
    skip_to_space ctx (fuel + 1) p =
      if p < ctx.data_end then
        (load8 ctx p >>= fun c =>
          if c ≠ 0x20 then skip_to_space ctx fuel (p + 1) else pure p)
      else pure p := by
  rw [skip_to_space]

/-- The scan loads consecutive offsets from its start, all of them below `data_end`. -/
theorem skip_to_space_reads (ctx : PacketView) (fuel p : Nat) :
    (skip_to_space ctx fuel p).reads =
      List.range' p (skip_to_space ctx fuel p).reads.length ∧
    ((skip_to_space ctx fuel p).reads.length = 0 ∨
      p + (skip_to_space ctx fuel p).reads.length ≤ ctx.data_end) := by
  induction fuel generalizing p with
  | zero => simp [skip_to_space]
  | succ fuel ih =>
    rw [skip_to_space_step]
    by_cases h1 : p < ctx.data_end
    · rw [if_pos h1]
      by_cases h2 : (load8 ctx p).val = 0x20
      · simp only [Traced.reads_bind, h2, ne_eq, not_true_eq_false, if_false, Traced.reads_pure,
          List.append_nil]
        simp only [load8, List.length_singleton, List.range'_one]
        exact ⟨trivial, Or.inr (by omega)⟩
      · simp only [Traced.reads_bind, h2, ne_eq, not_false_eq_true, if_true]
        obtain ⟨a, b⟩ := ih (p + 1)
        generalize (skip_to_space ctx fuel (p + 1)).reads = r at a b
        simp only [load8, List.singleton_append, List.length_cons]
        refine ⟨?_, Or.inr ?_⟩
        · rw [List.range'_succ]
          exact congrArg _ a
        · rcases b with b | b
          · omega
          · omega
    · rw [if_neg h1]
      simp

set_option maxRecDepth 1000000 in
/-- C17, as stated, fails: in the 300-byte payload `late_space` the first space is byte 253
of the payload; the scan loads the 254 bytes at offsets 54 to 307, beyond the first 200, and
the request is matched. -/
theorem scan_leaves_the_window :
    (packet_of (frame_to_constant 80 late_space) 0).data_end = 354 ∧
    payload_start (packet_of (frame_to_constant 80 late_space) 0) 34 = 54 ∧
    (∀ i, i < 200 → byte (packet_of (frame_to_constant 80 late_space) 0) (54 + i) ≠ 0x20) ∧
    (skip_to_space (packet_of (frame_to_constant 80 late_space) 0) (354 - 54) 54).reads =
      List.range' 54 254 ∧
    (is_token_request (packet_of (frame_to_constant 80 late_space) 0) 34).val = true := by
  decide

/-- C17, amended.  The scan for the first space terminates with the loop condition false,
and it examines only payload bytes before `data_end`: consecutive offsets from the payload
start, at most `data_end - payload` of them, whatever the 200-byte figure.  If there is no
space before `data_end`, the result is no match. -/
theorem scan_is_bounded_by_data_end (ctx : PacketView) (tcp : Nat) :
    ¬ ((skip_to_space ctx (ctx.data_end - payload_start ctx tcp) (payload_start ctx tcp)).val <
          ctx.data_end ∧
        byte ctx (skip_to_space ctx (ctx.data_end - payload_start ctx tcp)
          (payload_start ctx tcp)).val ≠ 0x20) ∧
    (skip_to_space ctx (ctx.data_end - payload_start ctx tcp) (payload_start ctx tcp)).reads =
      List.range' (payload_start ctx tcp)
        (skip_to_space ctx (ctx.data_end - payload_start ctx tcp)
          (payload_start ctx tcp)).reads.length ∧
    (∀ i ∈ (skip_to_space ctx (ctx.data_end - payload_start ctx tcp)
        (payload_start ctx tcp)).reads, payload_start ctx tcp ≤ i ∧ i < ctx.data_end) ∧
    (skip_to_space ctx (ctx.data_end - payload_start ctx tcp)
      (payload_start ctx tcp)).reads.length ≤ ctx.data_end - payload_start ctx tcp ∧
    ((∀ i, payload_start ctx tcp ≤ i → i < ctx.data_end → byte ctx i ≠ 0x20) →
      (is_token_request ctx tcp).val = false) := by
  obtain ⟨_, _, c, _⟩ := skip_to_space_spec ctx (ctx.data_end - payload_start ctx tcp)
    (payload_start ctx tcp) (by omega)
  obtain ⟨a, b⟩ := skip_to_space_reads ctx (ctx.data_end - payload_start ctx tcp)
    (payload_start ctx tcp)
  refine ⟨fun h => h.2 (c h.1), a, fun i hi => ?_, by omega, fun hno => ?_⟩
  · rw [a, List.mem_range'_1] at hi
    omega
  · cases h : (is_token_request ctx tcp).val with
    | false => rfl
    | true =>
      obtain ⟨_, _, s, hs, hlt, _⟩ := (is_token_request_iff ctx tcp).1 h
      exact absurd hs.2.1 (hno s hs.1 hlt)

set_option maxRecDepth 1000000 in
/-- The 200-byte payload `no_space` has no space before `data_end`: the scan loads its 200
bytes and the request is not matched. -/
theorem scan_is_bounded_by_data_end_witness :
    (∀ i, 54 ≤ i → i < 254 →
      byte (packet_of (frame_to_constant 80 no_space) 0) i ≠ 0x20) ∧
    (skip_to_space (packet_of (frame_to_constant 80 no_space) 0)
      ((packet_of (frame_to_constant 80 no_space) 0).data_end -
        payload_start (packet_of (frame_to_constant 80 no_space) 0) 34)
      (payload_start (packet_of (frame_to_constant 80 no_space) 0) 34)).reads.length ≤
      (packet_of (frame_to_constant 80 no_space) 0).data_end -
        payload_start (packet_of (frame_to_constant 80 no_space) 0) 34 ∧
    (is_token_request (packet_of (frame_to_constant 80 no_space) 0) 34).val = false :=
  have h := scan_is_bounded_by_data_end (packet_of (frame_to_constant 80 no_space) 0) 34
  have hno : ∀ i, 54 ≤ i → i < 254 →
      byte (packet_of (frame_to_constant 80 no_space) 0) i ≠ 0x20 := by
    decide
  ⟨hno, h.2.2.2.1, h.2.2.2.2 hno⟩

/-! ## The method token -/

theorem bytes_at_add (ctx : PacketView) (off a b : Nat) :
    bytes_at ctx off (a + b) = bytes_at ctx off a ++ bytes_at ctx (off + a) b := by
  induction a generalizing off with
  | zero => simp [bytes_at]
  | succ a ih =>
    rw [show a + 1 + b = (a + b) + 1 by omega, bytes_at, bytes_at, ih (off + 1)]
    simp [Nat.add_assoc, Nat.add_comm 1 a]

/-- The path comparison succeeds exactly when the 18 bytes are `TOKEN_PATH`, NUL included. -/
theorem strncmp_token_path (ctx : PacketView) (q : Nat) :
    (bpf_strncmp ctx q TOKEN_PATH TOKEN_PATH_LEN).val = 0 ↔ bytes_at ctx q 18 = TOKEN_PATH := by
  have := strncmp_whole ctx (ascii "/latest/api/token") [] ascii_path_ne_zero q TOKEN_PATH_LEN
    (by rw [ascii_path_length]; decide)
  rw [ascii_path_length] at this
  exact this

/-- A payload `PUT ++ m ++ space` with no space in `m` has its first space right after `m`. -/
theorem first_space_after_method (ctx : PacketView) (p : Nat) (m : List Nat)
    (hm : ∀ x ∈ m, x ≠ 0x20)
    (hbytes : bytes_at ctx p (3 + m.length + 1) = ascii "PUT" ++ m ++ [0x20]) :
    bytes_at ctx p 3 = ascii "PUT" ∧ first_space ctx p (p + 3 + m.length) := by
  rw [Nat.add_assoc, bytes_at_add, List.append_assoc] at hbytes
  obtain ⟨hput, hrest⟩ := List.append_inj hbytes (by rw [bytes_at_length, ascii_PUT]; rfl)
  rw [bytes_at_succ_right] at hrest
  obtain ⟨hmid, hsp⟩ := List.append_inj hrest (by rw [bytes_at_length])
  have hsp2 : byte ctx (p + 3 + m.length) = 0x20 := by simpa using hsp
  refine ⟨hput, by omega, hsp2, fun i h1 h2 => ?_⟩
  by_cases h3 : i < p + 3
  · have := byte_of_bytes_at ctx p 3 _ hput (i - p) (by omega)
    rw [show p + (i - p) = i by omega, ascii_PUT] at this
    rw [this]
    obtain h | h | h : i - p = 0 ∨ i - p = 1 ∨ i - p = 2 := by omega
    all_goals rw [h]; decide
  · have := byte_of_bytes_at ctx (p + 3) m.length _ hmid (i - (p + 3)) (by omega)
    rw [show p + 3 + (i - (p + 3)) = i by omega] at this
    rw [this]
    have hlt : i - (p + 3) < m.length := by omega
    rw [List.getD_eq_getElem?_getD, List.getElem?_eq_getElem hlt]
    exact hm _ (List.getElem_mem hlt)

/-- C18.  For a payload of at least 200 captured bytes that is `PUT`, then any bytes `m`
without a space, then a space, `is_token_request` matches exactly when the path comparison
on the bytes after that space succeeds, whatever `m` is. -/
theorem method_is_matched_as_prefix (ctx : PacketView) (tcp : Nat) (m : List Nat)
    (hlen : payload_start ctx tcp + 200 ≤ ctx.data_end)
    (hm : ∀ x ∈ m, x ≠ 0x20)
    (hbytes : bytes_at ctx (payload_start ctx tcp) (3 + m.length + 1) =
      ascii "PUT" ++ m ++ [0x20])
    (hin : payload_start ctx tcp + 3 + m.length < ctx.data_end) :
    ((is_token_request ctx tcp).val = true ↔
      (bpf_strncmp ctx (payload_start ctx tcp + 3 + m.length + 1) TOKEN_PATH
        TOKEN_PATH_LEN).val = 0) := by
  obtain ⟨hput, hs⟩ := first_space_after_method ctx (payload_start ctx tcp) m hm hbytes
  rw [is_token_request_iff, strncmp_token_path]
  constructor
  · rintro ⟨_, _, s, hs2, _, hb⟩
    rw [first_space_unique ctx _ _ _ hs hs2]
    exact hb
  · intro hb
    exact ⟨hlen, hput, _, hs, hin, hb⟩

set_option maxRecDepth 1000000 in
/-- The 200-byte payload `PUTXYZ /latest/api/token`, NUL and padding is matched: here `m` is
`XYZ`. -/
theorem method_is_matched_as_prefix_witness :
    bytes_at (packet_of (frame_to_constant 80 putxyz_request) 0) 54 7 = ascii "PUTXYZ " ∧
    (bpf_strncmp (packet_of (frame_to_constant 80 putxyz_request) 0)
      (payload_start (packet_of (frame_to_constant 80 putxyz_request) 0) 34 + 3 +
        (ascii "XYZ").length + 1) TOKEN_PATH TOKEN_PATH_LEN).val = 0 ∧
    (is_token_request (packet_of (frame_to_constant 80 putxyz_request) 0) 34).val = true :=
  have h := method_is_matched_as_prefix (packet_of (frame_to_constant 80 putxyz_request) 0) 34
    (ascii "XYZ") (by decide) (by decide) (by decide) (by decide)
  ⟨by decide, by decide, h.2 (by decide)⟩

/-! ## Interleaved records -/

/-- The accesses of one call, made with no other call in between, are
`log_blocked_attempt`. -/
theorem call_steps_eq_log_blocked_attempt (maps : Maps) (src_ip : Nat) :
    (run_schedule src_ip [0, 0, 0] (maps.blocked_attempts, [CallState.start])) =
      ((log_blocked_attempt maps src_ip).blocked_attempts, [CallState.done]) := by
  cases h : bpf_map_lookup_elem maps.blocked_attempts src_ip with
  | none =>
    rw [log_blocked_attempt_absent maps src_ip h]
    simp [run_schedule, context_step, call_step, h, bpf_map_update_elem]
  | some c =>
    rw [log_blocked_attempt_present maps src_ip c h]
    simp [run_schedule, context_step, call_step, h]

theorem done_count_le_length (l : List CallState) : done_count l ≤ l.length := by
  induction l with
  | nil => simp [done_count]
  | cons c cs ih =>
    simp only [done_count, List.length_cons]
    split <;> omega

theorem done_count_set (l : List CallState) (i : Nat) (c c2 : CallState)
    (h : l[i]? = some c) :
    done_count (l.set i c2) + (if c = CallState.done then 1 else 0) =
      done_count l + (if c2 = CallState.done then 1 else 0) := by
  induction l generalizing i with
  | nil => simp at h
  | cons x xs ih =>
    cases i with
    | zero =>
      simp only [List.getElem?_cons_zero, Option.some.injEq] at h
      subst h
      simp only [List.set_cons_zero, done_count]
      omega
    | succ i =>
      simp only [List.getElem?_cons_succ] at h
      have := ih i h
      simp only [List.set_cons_succ, done_count]
      omega

theorem done_count_lt_length (l : List CallState) (i : Nat) (c : CallState)
    (h : l[i]? = some c) (hc : c ≠ CallState.done) : done_count l < l.length := by
  induction l generalizing i with
  | nil => simp at h
  | cons x xs ih =>
    cases i with
    | zero =>
      simp only [List.getElem?_cons_zero, Option.some.injEq] at h
      subst h
      have := done_count_le_length xs
      simp only [done_count, List.length_cons, hc, if_false]
      omega
    | succ i =>
      simp only [List.getElem?_cons_succ] at h
      have := ih i h
      simp only [done_count, List.length_cons]
      split <;> omega

theorem done_count_of_all_done (l : List CallState) (h : ∀ c ∈ l, c = CallState.done) :
    done_count l = l.length := by
  induction l with
  | nil => rfl
  | cons x xs ih =>
    have hx : x = CallState.done := h x (List.mem_cons_self _ _)
    have := ih (fun c hc => h c (List.mem_cons_of_mem _ hc))
    simp only [done_count, List.length_cons, hx, if_true]
    omega

theorem done_count_replicate_start (n : Nat) :
    done_count (List.replicate n CallState.start) = 0 := by
  induction n with
  | zero => rfl
  | succ n ih => simp [List.replicate_succ, done_count, ih]

theorem context_step_length (src_ip : Nat) (s : HashMap × List CallState) (i : Nat) :
    (context_step src_ip s i).2.length = s.2.length := by
  unfold context_step
  split
  · rfl
  · simp

theorem run_schedule_length (src_ip : Nat) (schedule : List Nat)
    (s : HashMap × List CallState) :
    (run_schedule src_ip schedule s).2.length = s.2.length := by
  induction schedule generalizing s with
  | nil => rfl
  | cons i rest ih =>
    rw [run_schedule, List.foldl_cons]
    exact (ih _).trans (context_step_length src_ip s i)

theorem set_eq_self (l : List CallState) (i : Nat) (c : CallState) (h : l[i]? = some c) :
    l.set i c = l := by
  induction l generalizing i with
  | nil => rfl
  | cons x xs ih =>
    cases i with
    | zero =>
      simp only [List.getElem?_cons_zero, Option.some.injEq] at h
      simp [h]
    | succ i =>
      simp only [List.getElem?_cons_succ] at h
      simp [ih i h]

/-- Every access of every context keeps `race_invariant`. -/
theorem race_invariant_step (src_ip : Nat) (m0 : HashMap) (s : HashMap × List CallState)
    (i : Nat) (hm0 : bpf_map_lookup_elem m0 src_ip = none)
    (hroom : m0.length < blocked_attempts_max_entries) (h64 : s.2.length < 2 ^ 64)
    (hinv : race_invariant src_ip m0 s) : race_invariant src_ip m0 (context_step src_ip s i) := by
  obtain ⟨mp, calls⟩ := s
  unfold context_step
  simp only
  cases hi : calls[i]? with
  | none => exact hinv
  | some c =>
    simp only
    have hmem : c ∈ calls := List.getElem?_mem hi
    have hcnt := fun c2 => done_count_set calls i c c2 hi
    obtain ⟨hnone, hsome⟩ := hinv
    simp only at hnone hsome h64
    cases c with
    | start =>
      have hd := hcnt
      simp only [reduceCtorEq, if_false, Nat.add_zero] at hd
      cases hl : bpf_map_lookup_elem mp src_ip with
      | none =>
        obtain ⟨h1, h2, h3⟩ := hnone hl
        simp only [call_step, hl]
        refine ⟨fun _ => ⟨h1, ?_, fun x hx => ?_⟩, fun c0 hc0 => ?_⟩
        · rw [hd]; simpa using h2
        · rcases List.mem_or_eq_of_mem_set hx with hx | hx
          · exact h3 x hx
          · exact Or.inr hx
        · simp only [hl] at hc0
          cases hc0
      | some c0 =>
        obtain ⟨h1, h2, h3⟩ := hsome c0 hl
        simp only [call_step, hl]
        have hd2 : done_count (calls.set i CallState.found) = done_count calls := by
          rw [hd]; simp
        refine ⟨fun hn => ?_, fun c1 hc1 => ?_⟩
        · simp only [hl] at hn
          cases hn
        · simp only [hl, Option.some.injEq] at hc1
          subst hc1
          rw [hd2]
          refine ⟨h1, h2, fun v hv => ?_⟩
          rcases List.mem_or_eq_of_mem_set hv with hv | hv
          · exact h3 v hv
          · cases hv
    | found =>
      have hd := hcnt
      simp only [reduceCtorEq, if_false, Nat.add_zero] at hd
      cases hl : bpf_map_lookup_elem mp src_ip with
      | none =>
        obtain ⟨_, _, h3⟩ := hnone hl
        rcases h3 _ hmem with h | h <;> cases h
      | some c0 =>
        obtain ⟨h1, h2, h3⟩ := hsome c0 hl
        simp only [call_step, hl, Option.getD_some]
        have hd2 : done_count (calls.set i (CallState.loaded c0)) = done_count calls := by
          rw [hd]; simp
        refine ⟨fun hn => ?_, fun c1 hc1 => ?_⟩
        · simp only [hl] at hn
          cases hn
        · simp only [hl, Option.some.injEq] at hc1
          subst hc1
          rw [hd2]
          refine ⟨h1, h2, fun v hv => ?_⟩
          rcases List.mem_or_eq_of_mem_set hv with hv | hv
          · exact h3 v hv
          · cases hv
            exact h2
    | loaded v =>
      have hd := hcnt CallState.done
      simp only [reduceCtorEq, if_false, Nat.add_zero, if_true] at hd
      have hlt := done_count_lt_length calls i _ hi (by simp)
      cases hl : bpf_map_lookup_elem mp src_ip with
      | none =>
        obtain ⟨_, _, h3⟩ := hnone hl
        rcases h3 _ hmem with h | h <;> cases h
      | some c0 =>
        obtain ⟨h1, h2, h3⟩ := hsome c0 hl
        have hv := h3 v hmem
        have hmod : (v + 1) % 2 ^ 64 = v + 1 := Nat.mod_eq_of_lt (by omega)
        simp only [call_step, hmod]
        have hnew := lookup_map_store_self mp src_ip (v + 1) hl
        refine ⟨fun hn => ?_, fun c1 hc1 => ?_⟩
        · rw [hnew] at hn
          cases hn
        · rw [hnew] at hc1
          simp only [Option.some.injEq] at hc1
          subst hc1
          rw [hd]
          refine ⟨by omega, by omega, fun w hw => ?_⟩
          rcases List.mem_or_eq_of_mem_set hw with hw | hw
          · have := h3 w hw
            omega
          · cases hw
    | absent =>
      have hd := hcnt CallState.done
      simp only [reduceCtorEq, if_false, Nat.add_zero, if_true] at hd
      cases hl : bpf_map_lookup_elem mp src_ip with
      | none =>
        obtain ⟨h1, h2, h3⟩ := hnone hl
        subst h1
        have hnew : bpf_map_lookup_elem
            (bpf_map_update_elem blocked_attempts_max_entries mp src_ip 1) src_ip = some 1 := by
          simp [bpf_map_update_elem, hl, hroom, bpf_map_lookup_elem]
        simp only [call_step]
        refine ⟨fun hn => ?_, fun c1 hc1 => ?_⟩
        · rw [hnew] at hn
          cases hn
        · rw [hnew] at hc1
          simp only [Option.some.injEq] at hc1
          subst hc1
          rw [hd]
          refine ⟨by omega, by omega, fun w hw => ?_⟩
          rcases List.mem_or_eq_of_mem_set hw with hw | hw
          · rcases h3 _ hw with h | h <;> cases h
          · cases hw
      | some c0 =>
        obtain ⟨h1, h2, h3⟩ := hsome c0 hl
        have hnew : bpf_map_lookup_elem
            (bpf_map_update_elem blocked_attempts_max_entries mp src_ip 1) src_ip = some 1 := by
          simp only [bpf_map_update_elem, hl]
          exact lookup_map_store_self mp src_ip 1 hl
        simp only [call_step]
        refine ⟨fun hn => ?_, fun c1 hc1 => ?_⟩
        · rw [hnew] at hn
          cases hn
        · rw [hnew] at hc1
          simp only [Option.some.injEq] at hc1
          subst hc1
          rw [hd]
          refine ⟨by omega, by omega, fun w hw => ?_⟩
          rcases List.mem_or_eq_of_mem_set hw with hw | hw
          · have := h3 w hw
            omega
          · cases hw
    | done =>
      simp only [call_step]
      rw [set_eq_self calls i _ hi]
      exact ⟨hnone, hsome⟩

theorem race_invariant_run (src_ip : Nat) (m0 : HashMap) (schedule : List Nat)
    (s : HashMap × List CallState) (hm0 : bpf_map_lookup_elem m0 src_ip = none)
    (hroom : m0.length < blocked_attempts_max_entries) (h64 : s.2.length < 2 ^ 64)
    (hinv : race_invariant src_ip m0 s) :
    race_invariant src_ip m0 (run_schedule src_ip schedule s) := by
  induction schedule generalizing s with
  | nil => exact hinv
  | cons i rest ih =>
    rw [run_schedule, List.foldl_cons]
    exact ih _ (by rw [context_step_length]; exact h64)
      (race_invariant_step src_ip m0 s i hm0 hroom h64 hinv)

/-- C16, as stated, fails: two calls for `10.0.0.5`, absent from the empty map, whose lookups
both come before either insert, both insert the count 1, and the map holds 1 after two calls;
two calls for an address counted 5 times that both load the 5 before either stores leave 6. -/
theorem interleaved_records_lose_updates :
    run_schedule src_10_0_0_5 [0, 1, 0, 1] ([], [CallState.start, CallState.start]) =
      ([(src_10_0_0_5, 1)], [CallState.done, CallState.done]) ∧
    run_schedule src_10_0_0_5 [0, 1, 0, 1, 0, 1]
      ([(src_10_0_0_5, 5)], [CallState.start, CallState.start]) =
      ([(src_10_0_0_5, 6)], [CallState.done, CallState.done]) := by
  decide

/-- C16, amended.  `N` calls of `log_blocked_attempt` for one address, started on a map that
does not hold the address and has spare capacity and interleaved in any order of their map
accesses, leave a count for the address once all of them have returned, and that count is at
least 1 and at most `N` (`N` below `2^64`). -/
theorem interleaved_records_bounds (src_ip : Nat) (m0 : HashMap) (N : Nat)
    (schedule : List Nat) (hN : 1 ≤ N) (h64 : N < 2 ^ 64)
    (hm0 : bpf_map_lookup_elem m0 src_ip = none)
    (hroom : m0.length < blocked_attempts_max_entries)
    (hdone : ∀ c ∈ (run_schedule src_ip schedule (m0, List.replicate N CallState.start)).2,
      c = CallState.done) :
    ∃ c, bpf_map_lookup_elem
        (run_schedule src_ip schedule (m0, List.replicate N CallState.start)).1 src_ip =
        some c ∧ 1 ≤ c ∧ c ≤ N := by
  have hinit : race_invariant src_ip m0 (m0, List.replicate N CallState.start) := by
    refine ⟨fun _ => ⟨rfl, done_count_replicate_start N, fun c hc => ?_⟩, fun c hc => ?_⟩
    · exact Or.inl (List.eq_of_mem_replicate hc)
    · simp only [hm0] at hc
      cases hc
  have hinv := race_invariant_run src_ip m0 schedule (m0, List.replicate N CallState.start)
    hm0 hroom (by simpa using h64) hinit
  have hlen := run_schedule_length src_ip schedule (m0, List.replicate N CallState.start)
  have hcount := done_count_of_all_done _ hdone
  simp only [List.length_replicate] at hlen
  rw [hlen] at hcount
  obtain ⟨hnone, hsome⟩ := hinv
  cases hl : bpf_map_lookup_elem
      (run_schedule src_ip schedule (m0, List.replicate N CallState.start)).1 src_ip with
  | none =>
    have := (hnone hl).2.1
    omega
  | some c =>
    obtain ⟨h1, h2, _⟩ := hsome c hl
    exact ⟨c, rfl, h1, by omega⟩

/-- Two interleaved calls on the empty map: both return and the count is 1, between 1 and
2. -/
theorem interleaved_records_bounds_witness :
    ∃ c, bpf_map_lookup_elem
        (run_schedule src_10_0_0_5 [0, 1, 0, 1]
          ([], List.replicate 2 CallState.start)).1 src_10_0_0_5 = some c ∧ 1 ≤ c ∧ c ≤ 2 :=
  interleaved_records_bounds src_10_0_0_5 [] 2 [0, 1, 0, 1] (by decide) (by decide)
    (by decide) (by decide) (by decide)

end MetadataBlocker
